import Mathlib

/-!
Shallow embedding of the rust-av/ffv1 FFV1 version-3 decoder core, together
with theorems settling the specification claims about it.

Modelling conventions, used uniformly below:

* Byte buffers are `List Nat`; every element of a real buffer is a byte
  value below 256.
* A Rust panic (out-of-bounds index, explicit panic, or an unsigned
  subtraction that underflows and, in release profile, wraps to an index
  that is then out of bounds) is modelled as `none`; fallible computations
  return `Option`.
* Machine integers are `Nat`/`Int`; where the source relies on wrapping
  casts or overflow the reduction `% 2^w` (or the centred `i32wrap`) is
  applied explicitly.
* Loops are translated to structural recursion; where the source bounds a
  loop only dynamically, a fuel argument that provably dominates the
  iteration count is used, so every definition evaluates by `decide`/`rfl`.
-/

/-- Wraps an unbounded integer to two's-complement `i32` semantics. -/
def i32wrap (x : Int) : Int :=
  (x + 2147483648) % 4294967296 - 2147483648

/-- Interprets a `u32` quantity (a natural number) as an `i32`, as the Rust
cast `as i32` does. -/
def i32ofNat (n : Nat) : Int :=
  i32wrap (n : Int)

/-- Interprets an `i32` quantity as a `u32`, as the Rust cast `as u32` does. -/
def u32ofInt (x : Int) : Nat :=
  (x % 4294967296).toNat

/-- Writes `v` at index `i` of a list, failing (like a Rust slice write)
when the index is out of bounds. -/
def setAt {α : Type} (l : List α) (i : Nat) (v : α) : Option (List α) :=
  if i < l.length then some (l.set i v) else none

/-- Models `&buf[i..]`: drops the first `i` elements, failing when `i`
exceeds the length. -/
def dropFrom {α : Type} (l : List α) (i : Nat) : Option (List α) :=
  if i ≤ l.length then some (l.drop i) else none

/-- Models `&buf[..n]`: takes the first `n` elements, failing when `n`
exceeds the length. -/
def takeTo {α : Type} (l : List α) (n : Nat) : Option (List α) :=
  if n ≤ l.length then some (l.take n) else none

/-- Error kinds of `error.rs` (`enum Error`), each carrying its message. -/
inductive Error where
  | InvalidInputData : String → Error
  | InvalidConfiguration : String → Error
  | FrameError : String → Error
  | SliceError : String → Error
  deriving DecidableEq

/-- Display form of an error, following the `thiserror` attributes in
`error.rs` (`"Invalid input data: {0}"` and so on). -/
def Error.display : Error → String
  | .InvalidInputData s => "Invalid input data: " ++ s
  | .InvalidConfiguration s => "Invalid configuration: " ++ s
  | .FrameError s => "Frame error: " ++ s
  | .SliceError s => "Slice error: " ++ s

/-- Recognizes the `SliceError` kind. -/
def Error.isSliceError : Error → Bool
  | .SliceError _ => true
  | _ => false

/-- Recognizes the `FrameError` kind. -/
def Error.isFrameError : Error → Bool
  | .FrameError _ => true
  | _ => false

/-- Recognizes the `InvalidConfiguration` kind. -/
def Error.isInvalidConfiguration : Error → Bool
  | .InvalidConfiguration _ => true
  | _ => false

/-- Modelled from the spec: `crc32mpeg2.rs` (function `crc32_mpeg2`) is not
among the sources; the spec fixes the algorithm as CRC-32 with polynomial
0x04C11DB7, initial value 0, no input/output reflection and no final XOR.
One shift-and-conditional-XOR step of that CRC. -/
def crcStep (c : Nat) : Nat :=
  if 2147483648 ≤ c then ((c <<< 1) &&& 0xFFFFFFFF) ^^^ 0x04C11DB7
  else (c <<< 1) &&& 0xFFFFFFFF

/-- Modelled from the spec: absorbs one input byte into the CRC-MPEG2
accumulator (xor into the top byte, then eight polynomial steps). -/
def crcByte (c b : Nat) : Nat :=
  (List.range 8).foldl (fun acc _ => crcStep acc) (c ^^^ ((b &&& 0xFF) <<< 24))

/-- Modelled from the spec: CRC-MPEG2 of a whole byte buffer, initial
value 0; a remainder of zero attests integrity. -/
def crc32_mpeg2 (data : List Nat) : Nat :=
  data.foldl crcByte 0

/-! ## Range coder (`rangecoder/range.rs`) -/

/-- State of `RangeCoder` (`rangecoder/range.rs`). The `cur_byte` field is
kept for structural fidelity; the source never reads it. -/
structure RangeCoder where
  buf : List Nat
  pos : Nat
  low : Nat
  rng : Nat
  cur_byte : Int
  zero_state : List Nat
  one_state : List Nat
  deriving DecidableEq

/-- Figure 17 and Figure 18 of the FFV1 draft: copies `table` into
`one_state` and derives `zero_state[i] = (256 - one_state[256-i] as u16) as u8`
for `i` in `[1,254]` (`RangeCoder::set_table`). -/
def RangeCoder.setTable (c : RangeCoder) (table : List Nat) : RangeCoder :=
  { c with
    one_state := table
    zero_state := (List.range 256).map fun i =>
      if 1 ≤ i ∧ i < 255 then (256 - table.getD (256 - i) 0) % 256
      else c.zero_state.getD i 0 }

/-- Buffer refill of `RangeCoder::refill`: when `rng` has shrunk below
0x100, both registers shift left one byte (the u16 `low` wrapping) and the
next input byte, if any, enters `low`. -/
def RangeCoder.refill (c : RangeCoder) : RangeCoder :=
  if c.rng < 0x100 then
    let low := (c.low <<< 8) &&& 0xFFFF
    if c.pos < c.buf.length then
      { c with rng := c.rng <<< 8, low := low + c.buf.getD c.pos 0, pos := c.pos + 1 }
    else
      { c with rng := c.rng <<< 8, low := low }
  else c

/-- One binary decision of `RangeCoder::get`, acting on a single context
byte `s`: returns the decoded bit, the updated context byte and the updated
coder. -/
def RangeCoder.get (c : RangeCoder) (s : Nat) : Bool × Nat × RangeCoder :=
  let rangeoff := (c.rng * s) >>> 8
  let rng1 := c.rng - rangeoff
  if c.low < rng1 then
    (false, c.zero_state.getD s 0, RangeCoder.refill { c with rng := rng1 })
  else
    (true, c.one_state.getD s 0,
      RangeCoder.refill { c with low := c.low - rng1, rng := rangeoff })

/-- Applies `RangeCoder::get` to cell `i` of a context vector, as the source
pattern `self.get(&mut state[i])` does; fails when `i` is out of bounds of
the vector (a Rust index panic). -/
def RangeCoder.getAt (c : RangeCoder) (st : List Nat) (i : Nat) :
    Option (Bool × List Nat × RangeCoder) := do
  let s ← st.get? i
  let r := c.get s
  some (r.1, st.set i r.2.1, r.2.2)

/-- Construction of `RangeCoder::new` minus the final `set_table` call:
reads the first two bytes into `low`, sets `rng = 0xFF00`, and clamps
`low`/`pos` when `low ≥ rng`. -/
def RangeCoder.newRaw (buf : List Nat) : Option RangeCoder := do
  let b0 ← buf.get? 0
  let b1 ← buf.get? 1
  let low0 := (b0 <<< 8) ||| b1
  let pl := if low0 ≥ 0xFF00 then (buf.length - 1, 0xFF00) else (2, low0)
  some { buf := buf, pos := pl.1, low := pl.2, rng := 0xFF00, cur_byte := -1,
         zero_state := List.replicate 256 0, one_state := List.replicate 256 0 }

/-- Constructor `RangeCoder::new`. The source loads the constant
`DEFAULT_STATE_TRANSITION` here; that table lives in `rangecoder/tables.rs`,
which is not among the sources, so the table is received as the `table`
argument (see `decodeFrame` and friends, which thread it through). -/
def RangeCoder.new (table : List Nat) (buf : List Nat) : Option RangeCoder := do
  let c ← RangeCoder.newRaw buf
  some (c.setTable table)

/-- Exponent loop of `RangeCoder::symbol`: repeatedly decodes
`get(state[1 + min(e,9)])` while it returns one, incrementing `e`, with the
source's explicit panic once `e` exceeds 31. The first argument is fuel
initialised to 32, which dominates the loop count. -/
def RangeCoder.expGo : Nat → RangeCoder → List Nat → Nat →
    Option (Nat × List Nat × RangeCoder)
  | 0, _, _, _ => none
  | left + 1, c, st, e => do
    let r ← c.getAt st (1 + min e 9)
    if r.1 then
      if e + 1 > 31 then none
      else RangeCoder.expGo left r.2.2 r.2.1 (e + 1)
    else some (e, r.2.1, r.2.2)

/-- Mantissa loop of `RangeCoder::symbol`: for `i` from `e-1` down to `0`,
`a = 2*a + get(state[22 + min(i,9)])`. The first argument counts the
remaining iterations (so the current index is one less than it). -/
def RangeCoder.manGo : Nat → RangeCoder → List Nat → Nat →
    Option (Nat × List Nat × RangeCoder)
  | 0, c, st, a => some (a, st, c)
  | k + 1, c, st, a => do
    let r ← c.getAt st (22 + min k 9)
    RangeCoder.manGo k r.2.2 r.2.1 (2 * a + (if r.1 then 1 else 0))

/-- Scalar symbol decoder `RangeCoder::symbol` over a context vector:
zero flag, exponent, mantissa, and for the signed variant a sign flag. -/
def RangeCoder.symbol (c : RangeCoder) (st : List Nat) (signed : Bool) :
    Option (Int × List Nat × RangeCoder) := do
  let r0 ← c.getAt st 0
  if r0.1 then some (0, r0.2.1, r0.2.2)
  else do
    let re ← RangeCoder.expGo 32 r0.2.2 r0.2.1 0
    let e := re.1
    let ra ← RangeCoder.manGo e re.2.2 re.2.1 1
    let a := ra.1
    if signed then do
      let rs ← ra.2.2.getAt ra.2.1 (11 + min e 10)
      if rs.1 then some (i32wrap (-(i32ofNat a)), rs.2.1, rs.2.2)
      else some (i32ofNat a, rs.2.1, rs.2.2)
    else some (i32ofNat a, ra.2.1, ra.2.2)

/-- Unsigned scalar read `RangeCoder::ur` (`symbol(state, false) as u32`). -/
def RangeCoder.ur (c : RangeCoder) (st : List Nat) :
    Option (Nat × List Nat × RangeCoder) := do
  let r ← c.symbol st false
  some (u32ofInt r.1, r.2.1, r.2.2)

/-- Signed scalar read `RangeCoder::sr`. -/
def RangeCoder.sr (c : RangeCoder) (st : List Nat) :
    Option (Int × List Nat × RangeCoder) :=
  c.symbol st true

/-- Boolean read `RangeCoder::br` (`get` on cell 0 of the vector). -/
def RangeCoder.br (c : RangeCoder) (st : List Nat) :
    Option (Bool × List Nat × RangeCoder) :=
  c.getAt st 0

/-- Termination read of `RangeCoder::sentinal_end`: one `get` on a
synthetic context byte 129, discarding the resulting state. -/
def RangeCoder.sentinalEnd (c : RangeCoder) : RangeCoder :=
  (c.get 129).2.2

/-- Position report `RangeCoder::get_pos`: `pos - 1` when a refill is
pending (`rng < 0x100`), else `pos`. -/
def RangeCoder.getPos (c : RangeCoder) : Nat :=
  if c.rng < 0x100 then c.pos - 1 else c.pos

/-! ## Slice layout (`slice.rs`) -/

/-- Per-slice location record `SliceInfo` of `slice.rs`. -/
structure SliceInfo where
  pos : Nat
  size : Nat
  error_status : Nat
  deriving DecidableEq

/-- Footer walk of `count_slices`, from `endPos` toward the packet start.
Reads the 3-byte big-endian `slice_size` and the byte at offset 3 past the
footer start (the `error_status` position), pushes the slice record, and
continues at `pos = endPos - size - footerSize`. A read out of bounds or
an underflowing position is a panic (`none`). Fuel dominates the iteration
count because `endPos` strictly decreases. -/
def countSlicesGo (buf : List Nat) (footerSize : Nat) :
    Nat → Nat → List SliceInfo → Option (List SliceInfo)
  | 0, endPos, acc => if endPos = 0 then some acc else none
  | fuel + 1, endPos, acc =>
    if endPos = 0 then some acc
    else if endPos < footerSize then none
    else do
      let b0 ← buf.get? (endPos - footerSize)
      let b1 ← buf.get? (endPos - footerSize + 1)
      let b2 ← buf.get? (endPos - footerSize + 2)
      let size := ((b0 <<< 16) ||| (b1 <<< 8)) ||| b2
      let es ← buf.get? (endPos - footerSize + 3)
      if endPos < size + footerSize then none
      else
        countSlicesGo buf footerSize fuel (endPos - size - footerSize)
          (acc ++ [⟨endPos - size - footerSize, size, es⟩])

/-- Function `count_slices` of `slice.rs`: footer size 3, plus 5 more when
`ec` is set; walk from the end of the packet, then reverse. -/
def countSlices (buf : List Nat) (ec : Bool) : Option (List SliceInfo) :=
  let footerSize := if ec then 3 + 5 else 3
  (countSlicesGo buf footerSize buf.length buf.length []).map List.reverse

/-- Stated from the claim (C1), for comparison with `countSlices`: the same
walk but with a footer of 3 bytes of slice_size plus 1 byte of error_status
(total 4) when `ec` is clear, and 8 bytes when `ec` is set. -/
def countSlicesClaim (buf : List Nat) (ec : Bool) : Option (List SliceInfo) :=
  let footerSize := if ec then 8 else 4
  (countSlicesGo buf footerSize buf.length buf.length []).map List.reverse

/-- Keyframe probe `is_keyframe` of `slice.rs`: a fresh range coder over
the packet and one boolean read on an all-128 context vector. -/
def isKeyframe (table : List Nat) (buf : List Nat) : Option Bool := do
  let c ← RangeCoder.new table buf
  let r ← c.br (List.replicate 32 128)
  some r.1

/-! ## Bit reader (`golombcoder/bitreader.rs`) -/

/-- State of `BitReader`: an MSB-first bit reader with a u32 shift
register. -/
structure BitReader where
  buf : List Nat
  pos : Nat
  bit_buf : Nat
  bits_in_buf : Nat
  deriving DecidableEq

/-- Refill loop of `BitReader::u`: pulls whole bytes into the shift
register while fewer than `count` bits are buffered. Returns the updated
reader and whether the source's 16/`count - 16` split path was taken. The
fuel (first argument) dominates the iteration count, which is at most four
because each pass adds eight bits and the loop stops at or before 32. -/
def BitReader.uFill : Nat → BitReader → Nat → Option (BitReader × Bool)
  | 0, _, _ => none
  | f + 1, br, count =>
    if count > br.bits_in_buf then
      match br.buf.get? br.pos with
      | none => none
      | some b =>
        let br1 : BitReader :=
          { br with bit_buf := ((br.bit_buf <<< 8) ||| b) &&& 0xFFFFFFFF,
                    bits_in_buf := br.bits_in_buf + 8, pos := br.pos + 1 }
        if br1.bits_in_buf > 24 then
          if count ≤ br1.bits_in_buf then some (br1, false)
          else if count ≤ 32 then some (br1, true)
          else BitReader.uFill f br1 count
        else BitReader.uFill f br1 count
    else some (br, false)

/-- Body of `BitReader::u` with explicit recursion depth (the split path
recurses at widths 16 and `count - 16`, so depth two suffices). Requests
beyond 32 bits are the source's explicit panic. -/
def BitReader.uGo : Nat → BitReader → Nat → Option (Nat × BitReader)
  | 0, _, _ => none
  | d + 1, br, count =>
    if count > 32 then none
    else do
      let rs ← BitReader.uFill 8 br count
      if rs.2 then do
        let hi ← BitReader.uGo d rs.1 16
        let lo ← BitReader.uGo d hi.2 (count - 16)
        some ((hi.1 <<< 16) ||| lo.1, lo.2)
      else
        let bib := rs.1.bits_in_buf - count
        some ((rs.1.bit_buf >>> bib) &&& ((1 <<< count) - 1),
          { rs.1 with bits_in_buf := bib })

/-- Reads `count` bits, MSB first (`BitReader::u`). -/
def BitReader.u (br : BitReader) (count : Nat) : Option (Nat × BitReader) :=
  BitReader.uGo 2 br count

/-! ## Golomb-Rice coder (`golombcoder/golomb.rs`) -/

/-- Modelled from the spec: `golombcoder/tables.rs` is not among the
sources; the spec names `LOG2_RUN` as the FFV1 specification's Golomb
run-length table, whose 41 entries are fixed by that specification. -/
def LOG2_RUN : List Nat :=
  [0, 0, 0, 0, 1, 1, 1, 1, 2, 2, 2, 2, 3, 3, 3, 3, 4, 4, 5, 5,
   6, 6, 7, 7, 8, 9, 10, 11, 12, 13, 14, 15, 16, 17, 18, 19, 20,
   21, 22, 23, 24]

/-- Adaptive per-context VLC state (`struct State` in
`golombcoder/golomb.rs`). -/
structure GolombState where
  drift : Int
  error_sum : Int
  bias : Int
  count : Int
  deriving DecidableEq

/-- Default VLC state: drift 0, error_sum 4, bias 0, count 1. -/
def GolombState.default : GolombState :=
  { drift := 0, error_sum := 4, bias := 0, count := 1 }

/-- Function `sign_extend` of `golombcoder/golomb.rs`: for eight bits the
`as i8` round trip, otherwise a shift to the top of an i32 followed by an
arithmetic shift back (floor division by the same power of two). -/
def sign_extend (n : Int) (bits : Nat) : Int :=
  if bits = 8 then (n + 128) % 256 - 128
  else Int.fdiv (i32wrap (n * (2 ^ (32 - bits) : Nat))) ((2 ^ (32 - bits) : Nat))

/-- State of the Golomb-Rice `Coder`. -/
structure GolombCoder where
  r : BitReader
  run_mode : Nat
  run_count : Int
  run_index : Nat
  x : Nat
  w : Nat
  deriving DecidableEq

/-- Constructor `Coder::new`. -/
def GolombCoder.new (buf : List Nat) : GolombCoder :=
  { r := { buf := buf, pos := 0, bit_buf := 0, bits_in_buf := 0 },
    run_mode := 0, run_count := 0, run_index := 0, x := 0, w := 0 }

/-- Method `new_plane`: stores the plane width and resets the run index. -/
def GolombCoder.newPlane (g : GolombCoder) (width : Nat) : GolombCoder :=
  { g with w := width, run_index := 0 }

/-- Method `new_run`. -/
def GolombCoder.newRun (g : GolombCoder) : GolombCoder :=
  { g with run_mode := 0, run_count := 0 }

/-- Method `new_line`: runs are per line, so reset the run and the column. -/
def GolombCoder.newLine (g : GolombCoder) : GolombCoder :=
  { g.newRun with x := 0 }

/-- Rice parameter loop of `get_vlc_symbol`:
`k = 0; i = count; while i < error_sum { k += 1; i += i }`. The fuel
bounds the loop; for the reachable states (`count ≥ 1`) at most 31
iterations occur, and a non-positive `count` with larger `error_sum` would
loop forever in the source (modelled as `none`). -/
def vlcK : Nat → Int → Int → Nat → Option Nat
  | 0, _, _, _ => none
  | f + 1, i, es, k => if i < es then vlcK f (i + i) es (k + 1) else some k

/-- Unary prefix loop of `get_ur_golomb`: up to 12 one-bit reads; a
terminating prefix yields `u(k) + (prefix << k)`, and after 12 failures the
escape value `u(bits) + 11`. -/
def urGolombGo : Nat → BitReader → Nat → Nat → Nat → Option (Int × BitReader)
  | 0, br, _, bits, _ => do
    let r ← br.u bits
    some (i32wrap (i32ofNat r.1 + 11), r.2)
  | f + 1, br, k, bits, pfx => do
    let rb ← br.u 1
    if rb.1 = 1 then do
      let rv ← rb.2.u k
      some (i32wrap (i32ofNat rv.1 + i32wrap ((pfx : Int) * (2 ^ k : Nat))), rv.2)
    else urGolombGo f rb.2 k bits (pfx + 1)

/-- Method `get_ur_golomb`. -/
def getUrGolomb (br : BitReader) (k bits : Nat) : Option (Int × BitReader) :=
  urGolombGo 12 br k bits 0

/-- Method `get_sr_golomb`: odd unsigned codes map to `-(v>>1)-1`, even
ones to `v>>1` (arithmetic shifts, hence floor division). -/
def getSrGolomb (br : BitReader) (k bits : Nat) : Option (Int × BitReader) := do
  let rv ← getUrGolomb br k bits
  if rv.1.emod 2 = 1 then some (i32wrap (-(rv.1.fdiv 2) - 1), rv.2)
  else some (rv.1.fdiv 2, rv.2)

/-- Method `get_vlc_symbol`: reads a signed Rice code with the adaptive
parameter, folds in drift correction, bias and sign extension, then updates
the adaptive state exactly as the source does. -/
def getVlcSymbol (br : BitReader) (st : GolombState) (bits : Nat) :
    Option (Int × GolombState × BitReader) := do
  let k ← vlcK 64 st.count st.error_sum 0
  let rv ← getSrGolomb br k bits
  let v := if 2 * st.drift < -st.count then i32wrap (-1 - rv.1) else rv.1
  let ret := sign_extend (i32wrap (v + st.bias)) bits
  let es := i32wrap (st.error_sum + |v|)
  let dr := i32wrap (st.drift + v)
  let st1 : GolombState :=
    if st.count = 128 then
      { st with count := 64, drift := dr.fdiv 2, error_sum := es.fdiv 2 }
    else { st with drift := dr, error_sum := es }
  let st2 : GolombState := { st1 with count := st1.count + 1 }
  let st3 : GolombState :=
    if st2.drift ≤ -st2.count then
      { st2 with bias := max (st2.bias - 1) (-128),
                 drift := max (st2.drift + st2.count) (-st2.count + 1) }
    else if st2.drift > 0 then
      { st2 with bias := min (st2.bias + 1) 127,
                 drift := min (st2.drift - st2.count) 0 }
    else st2
  some (ret, st3, rv.2)

/-- Run-entry step of `Coder::sg` (the `run_count == 0 && run_mode == 1`
branch): one flag bit either starts a run of `1 << LOG2_RUN[run_index]`
(bumping the index when the run fits the line) or reads an explicit
`LOG2_RUN[run_index]`-bit run count, decrementing the index and switching
to mid-run mode. -/
def GolombCoder.runStart (g : GolombCoder) : Option GolombCoder := do
  let rb ← g.r.u 1
  if rb.1 = 1 then do
    let lr ← LOG2_RUN.get? g.run_index
    let rc : Nat := 1 <<< lr
    let g1 := { g with r := rb.2, run_count := (rc : Int) }
    let g2 := if g1.x + rc ≤ g1.w then { g1 with run_index := g1.run_index + 1 }
              else g1
    some g2
  else do
    let lr ← LOG2_RUN.get? g.run_index
    let rcr ← (if lr ≠ 0 then do
        let rv ← rb.2.u lr
        some ((rv.1 : Int), rv.2)
      else some ((0 : Int), rb.2))
    let g1 := { g with r := rcr.2, run_count := rcr.1 }
    let g2 := if g1.run_index ≠ 0 then { g1 with run_index := g1.run_index - 1 }
              else g1
    some { g2 with run_mode := 2 }

/-- Method `Coder::sg`: the signed sample difference with run-length
handling (3.8.2.2) and level coding, falling back to a direct VLC symbol
outside run mode. -/
def GolombCoder.sg (g0 : GolombCoder) (context : Int) (st : GolombState)
    (bits : Nat) : Option (Int × GolombState × GolombCoder) := do
  let g := if context = 0 ∧ g0.run_mode = 0 then { g0 with run_mode := 1 }
           else g0
  if g.run_mode ≠ 0 then do
    let g1 ← (if g.run_count = 0 ∧ g.run_mode = 1 then g.runStart else some g)
    let g2 := { g1 with run_count := g1.run_count - 1 }
    if g2.run_count < 0 then do
      let g3 := g2.newRun
      let rv ← getVlcSymbol g3.r st bits
      let diff := if rv.1 ≥ 0 then i32wrap (rv.1 + 1) else rv.1
      some (diff, rv.2.1, { g3 with r := rv.2.2, x := g3.x + 1 })
    else some (0, st, { g2 with x := g2.x + 1 })
  else do
    let rv ← getVlcSymbol g.r st bits
    some (rv.1, rv.2.1, { g with r := rv.2.2, x := g.x + 1 })

/-! ## Predictor and context (`pred.rs`) -/

/-- Function `derive_borders` of `pred.rs`: the six neighbour samples
`(T, L, t, l, tr, tl)` with the zero-border policy of sections 3.1/3.2.
Reads outside the plane slice are panics (`none`). -/
def deriveBorders (plane : List Nat) (x y width stride : Nat) :
    Option (Nat × Nat × Nat × Nat × Nat × Nat) := do
  let pos := y * stride + x
  let T ← (if y > 1 then plane.get? (pos - 2 * stride) else some 0)
  let L ← (if y > 0 ∧ x = 1 then plane.get? (pos - stride - 1)
    else if x > 1 then plane.get? (pos - 2)
    else some 0)
  let t ← (if y > 0 then plane.get? (pos - stride) else some 0)
  let l ← (if x > 0 then plane.get? (pos - 1)
    else if y > 0 then plane.get? (pos - stride)
    else some 0)
  let tl ← (if y > 1 ∧ x = 0 then plane.get? (pos - 2 * stride)
    else if y > 0 ∧ x > 0 then plane.get? (pos - stride - 1)
    else some 0)
  let tr ← (if y > 0 then plane.get? (pos - stride + min 1 (width - 1 - x))
    else some 0)
  some (T, L, t, l, tr, tl)

/-- Function `get_context` of `pred.rs`: the five quantization-table
contributions indexed by the neighbour differences, reduced to their low
eight bits. -/
def getContext (qts : List (List Int)) (T L t l tr tl : Int) : Int :=
  (qts.getD 0 []).getD ((l - tl).emod 256).toNat 0 +
    (qts.getD 1 []).getD ((tl - t).emod 256).toNat 0 +
    (qts.getD 2 []).getD ((t - tr).emod 256).toNat 0 +
    (qts.getD 3 []).getD ((L - l).emod 256).toNat 0 +
    (qts.getD 4 []).getD ((T - t).emod 256).toNat 0

/-- Function `get_median` of `pred.rs`:
`a + b + c - min(a, min(b, c)) - max(a, max(b, c))`. -/
def getMedian (a b c : Int) : Int :=
  a + b + c - min a (min b c) - max a (max b c)

/-! ## Decoder data model (`record.rs`, `slice.rs`, `decoder.rs`) -/

/-- Parsed configuration record (`struct ConfigRecord` of `record.rs`). -/
structure ConfigRecord where
  version : Nat
  micro_version : Nat
  coder_type : Nat
  state_transition_delta : List Int
  colorspace_type : Nat
  bits_per_raw_sample : Nat
  chroma_planes : Bool
  log2_h_chroma_subsample : Nat
  log2_v_chroma_subsample : Nat
  extra_plane : Bool
  num_h_slices_minus1 : Nat
  num_v_slices_minus1 : Nat
  quant_table_set_count : Nat
  context_count : List Int
  quant_tables : List (List (List Int))
  states_coded : Bool
  initial_state_delta : List (List (List Int))
  initial_states : List (List (List Nat))
  ec : Nat
  intra : Nat
  width : Nat
  height : Nat
  deriving DecidableEq

/-- Per-slice header fields (`struct SliceHeader` of `slice.rs`). -/
structure SliceHeader where
  slice_width_minus1 : Nat
  slice_height_minus1 : Nat
  slice_x : Nat
  slice_y : Nat
  quant_table_set_index : List Nat
  picture_structure : Nat
  sar_num : Nat
  sar_den : Nat
  deriving DecidableEq

/-- Per-plane layout of a slice (`struct SlicePlane` of `slice.rs`). -/
structure SlicePlane where
  start_x : Nat
  start_y : Nat
  width : Nat
  height : Nat
  stride : Nat
  offset : Nat
  quant : Nat
  deriving DecidableEq

/-- Per-slice decoding state (`struct Slice` of `slice.rs`). -/
structure Slice where
  header : SliceHeader
  state : List (List (List Nat))
  golomb_state : List (List GolombState)
  planes : List SlicePlane
  deriving DecidableEq

/-- The `Default` slice: zeroed header, no states, no planes. -/
def Slice.default : Slice :=
  { header := { slice_width_minus1 := 0, slice_height_minus1 := 0,
                slice_x := 0, slice_y := 0, quant_table_set_index := [],
                picture_structure := 0, sar_num := 0, sar_den := 0 },
    state := [], golomb_state := [], planes := [] }

/-- Frame-to-frame decoder state (`struct InternalFrame` of `slice.rs`). -/
structure InternalFrame where
  keyframe : Bool
  slice_info : List SliceInfo
  slices : List Slice
  deriving DecidableEq

/-- Decoded output frame (`struct Frame` of `decoder.rs`). -/
structure Frame where
  buf : List (List Nat)
  buf16 : List (List Nat)
  buf32 : List (List Nat)
  width : Nat
  height : Nat
  bit_depth : Nat
  color_space : Int
  has_chroma : Bool
  has_alpha : Bool
  chroma_subsample_v : Nat
  chroma_subsample_h : Nat
  deriving DecidableEq

/-- Decoder instance (`struct Decoder` of `decoder.rs`). -/
structure Decoder where
  record : ConfigRecord
  state_transition : List Nat
  current_frame : InternalFrame
  deriving DecidableEq

/-- The per-slice entropy coder variant (`enum Coder` of `decoder.rs`). -/
inductive Coder where
  | golomb : GolombCoder → Coder
  | range : RangeCoder → Coder
  deriving DecidableEq

/-- Recognizes the Golomb variant (the `matches!` test of `decode_line`). -/
def Coder.isGolomb : Coder → Bool
  | .golomb _ => true
  | .range _ => false

/-! ## Slice header parsing (`Decoder::parse_slice_header`) -/

/-- The chroma geometry division of `parse_slice_header`:
`(a as f64 / ((1 << log2) as f64)).ceil() as u32`. The shift is an `i32`
shift whose amount is masked to its low five bits in release profile, so
the divisor is `2 ^ (log2 % 32)` read as an `i32`: positive for
`log2 % 32 ≤ 30`, and `-2^31` when `log2 % 32 = 31`. `u32` numerators and
these divisors are exact in `f64` (division rescales only the exponent),
so `.ceil()` is the exact rational ceiling and the saturating `as u32`
cast yields the integer ceiling `(a + d - 1) / d` for a positive divisor
`d`, and 0 for the negative divisor, whose quotient lies in `(-a, 0]` and
so has a non-positive ceiling. -/
def ceilDivF64 (a log2 : Nat) : Nat :=
  if log2 % 32 ≤ 30 then
    (a + 2 ^ (log2 % 32) - 1) / 2 ^ (log2 % 32)
  else 0

/-- Reads `n` unsigned symbols, each truncated `as u8`, into a list: the
`quant_table_set_index` loop of `parse_slice_header`. -/
def readQtsIdx : Nat → List Nat → RangeCoder → List Nat →
    Option (List Nat × List Nat × RangeCoder)
  | 0, st, c, acc => some (acc, st, c)
  | n + 1, st, c, acc => do
    let r ← c.ur st
    readQtsIdx n r.2.1 r.2.2 (acc ++ [r.1 % 256])

/-- Pixel-rectangle and plane-list construction of `parse_slice_header`
(lines following the header reads): slice grid coordinates to pixel
rectangles, the full (luma) plane, the alpha plane pushed first when
`extra_plane` is set, and the two chroma planes with their `f64`-ceiling
subsampled geometry (see `ceilDivF64`). Multiplications, the plane
offsets, and the `start_x` additions wrap at `2^32` as the `u32`
arithmetic of the source does in release profile. -/
def slicePlanesOf (rec : ConfigRecord) (slice_x slice_y swm1 shm1 : Nat) :
    List SlicePlane :=
  let M := 4294967296
  let nh := rec.num_h_slices_minus1 + 1
  let nv := rec.num_v_slices_minus1 + 1
  let start_x := (slice_x * rec.width) % M / nh
  let start_y := (slice_y * rec.height) % M / nv
  let width := ((((slice_x + swm1 + 1) % M) * rec.width) % M / nh + M - start_x) % M
  let height := ((((slice_y + shm1 + 1) % M) * rec.height) % M / nv + M - start_y) % M
  let stride := rec.width
  let offset := (start_x + (start_y * stride) % M) % M
  let full_plane : SlicePlane :=
    { start_x := start_x, start_y := start_y, width := width, height := height,
      stride := stride, offset := offset, quant := 0 }
  let base :=
    (if rec.extra_plane then [{ full_plane with quant := 2 }] else []) ++
      [full_plane]
  if rec.chroma_planes then
    let cstart_x := ceilDivF64 start_x rec.log2_v_chroma_subsample
    let cstart_y := ceilDivF64 start_y rec.log2_h_chroma_subsample
    let cwidth := ceilDivF64 width rec.log2_h_chroma_subsample
    let cheight := ceilDivF64 height rec.log2_v_chroma_subsample
    let cstride := ceilDivF64 rec.width rec.log2_h_chroma_subsample
    let coffset := (cstart_x + (cstart_y * cstride) % M) % M
    let chroma_plane : SlicePlane :=
      { start_x := cstart_x, start_y := cstart_y, width := cwidth,
        height := cheight, stride := cstride, offset := coffset, quant := 1 }
    base ++ [chroma_plane, chroma_plane]
  else base

/-- Method `Decoder::parse_slice_header`: reads the header fields over a
fresh all-128 context vector, then pushes the computed planes onto the
slice. -/
def parseSliceHeader (rec : ConfigRecord) (cur : Slice) (coder : RangeCoder) :
    Option (Slice × RangeCoder) := do
  let st0 := List.replicate 32 128
  let r1 ← coder.ur st0
  let r2 ← r1.2.2.ur r1.2.1
  let r3 ← r2.2.2.ur r2.2.1
  let r4 ← r3.2.2.ur r3.2.1
  let qtsCount := 1 + (if rec.chroma_planes then 1 else 0) +
    (if rec.extra_plane then 1 else 0)
  let rq ← readQtsIdx qtsCount r4.2.1 r4.2.2 []
  let r5 ← rq.2.2.ur rq.2.1
  let r6 ← r5.2.2.ur r5.2.1
  let r7 ← r6.2.2.ur r6.2.1
  let hdr : SliceHeader :=
    { slice_x := r1.1, slice_y := r2.1, slice_width_minus1 := r3.1,
      slice_height_minus1 := r4.1, quant_table_set_index := rq.1,
      picture_structure := r5.1 % 256, sar_num := r6.1, sar_den := r7.1 }
  some ({ cur with
            header := hdr
            planes := cur.planes ++ slicePlanesOf rec r1.1 r2.1 r3.1 r4.1 },
    r7.2.2)

/-! ## Line decoding (`Decoder::decode_line`) -/

/-- The state threaded through line decoding: the active coder, the range
contexts, the Golomb contexts and the plane buffer slice being written. -/
structure LineCtx where
  coder : Coder
  state : List (List (List Nat))
  golomb_state : List (List GolombState)
  buf : List Nat
  deriving DecidableEq

/-- The residual read of `decode_line`: `golomb.sg` on
`golomb_state[qt][context]` with the shift, or `range.sr` on
`state[qt][context]`, writing the mutated context vector back. Returns the
raw residual, the updated coder and both updated state families. -/
def coderResidual (ctx : LineCtx) (qt : Nat) (context : Int) (shift : Nat) :
    Option (Int × Coder × List (List (List Nat)) × List (List GolombState)) :=
  match ctx.coder with
  | .golomb gc => do
      let row ← ctx.golomb_state.get? qt
      let gst ← row.get? context.toNat
      let rv ← gc.sg context gst shift
      some (rv.1, Coder.golomb rv.2.2, ctx.state,
        ctx.golomb_state.set qt (row.set context.toNat rv.2.1))
  | .range rc => do
      let row ← ctx.state.get? qt
      let vec ← row.get? context.toNat
      let rv ← rc.sr vec
      some (rv.1, Coder.range rv.2.2,
        ctx.state.set qt (row.set context.toNat rv.2.1), ctx.golomb_state)

/-- One sample of `Decoder::decode_line` (the body of its `x` loop): derive
the neighbours, the quantized context and its sign, read the residual from
the active coder, apply the sign, add the median prediction (with the
sign-extended 16-bit variant on the YCbCr/16-bit/Golomb path), mask with
`(1 << shift) - 1` and store. The loop-invariant `shift` and quantization
table bindings of the source are recomputed here per sample, which is
observationally identical. -/
def decodeSample (hdr : SliceHeader) (rec : ConfigRecord) (ctx : LineCtx)
    (width height stride yy qt x elemBits : Nat) : Option LineCtx := do
  let shift := if rec.colorspace_type = 1 then rec.bits_per_raw_sample + 1
               else rec.bits_per_raw_sample
  let qtsIdx ← hdr.quant_table_set_index.get? qt
  let quantTable ← rec.quant_tables.get? qtsIdx
  let bs ← deriveBorders ctx.buf x yy width stride
  let T := (bs.1 : Int)
  let L := (bs.2.1 : Int)
  let t := (bs.2.2.1 : Int)
  let l := (bs.2.2.2.1 : Int)
  let tr := (bs.2.2.2.2.1 : Int)
  let tl := (bs.2.2.2.2.2 : Int)
  let ctx0 := getContext quantTable T L t l tr tl
  let sign := ctx0 < 0
  let context := if ctx0 < 0 then -ctx0 else ctx0
  let rd ← coderResidual ctx qt context shift
  let diff := if sign then i32wrap (-rd.1) else rd.1
  let pred :=
    if rec.colorspace_type = 0 ∧ rec.bits_per_raw_sample = 16 ∧
        ctx.coder.isGolomb = true then
      let l16 := if 32768 ≤ l then l - 65536 else l
      let t16 := if 32768 ≤ t then t - 65536 else t
      let tl16 := if 32768 ≤ tl then tl - 65536 else tl
      getMedian l16 t16 (l16 + t16 - tl16)
    else getMedian l t (l + t - tl)
  let val := (diff + pred).emod (2 ^ shift)
  let buf1 ← setAt ctx.buf (yy * stride + x) (val.toNat % 2 ^ elemBits)
  some { coder := rd.2.1, state := rd.2.2.1, golomb_state := rd.2.2.2,
         buf := buf1 }

/-- The `x` loop of `decode_line`: `width` samples left to right. The fuel
(first matched argument) is initialised to `width`. -/
def decodeLineGo (hdr : SliceHeader) (rec : ConfigRecord)
    (width height stride yy qt elemBits : Nat) :
    Nat → Nat → LineCtx → Option LineCtx
  | 0, _, ctx => some ctx
  | left + 1, x, ctx => do
    let ctx1 ← decodeSample hdr rec ctx width height stride yy qt x elemBits
    decodeLineGo hdr rec width height stride yy qt elemBits left (x + 1) ctx1

/-- Method `Decoder::decode_line`: a Golomb coder starts a new line (runs
are horizontal), then every sample of the line is decoded. -/
def decodeLine (hdr : SliceHeader) (rec : ConfigRecord) (ctx : LineCtx)
    (width height stride yy qt elemBits : Nat) : Option LineCtx :=
  let ctx1 := match ctx.coder with
    | .golomb g => { ctx with coder := Coder.golomb g.newLine }
    | .range rc => { ctx with coder := Coder.range rc }
  decodeLineGo hdr rec width height stride yy qt elemBits width 0 ctx1

/-! ## Slice content (`Decoder::decode_slice_content*`) -/

/-- The `y` loop of `decode_slice_content_yuv` for one plane. -/
def yuvLines (hdr : SliceHeader) (rec : ConfigRecord)
    (width height stride qt elemBits : Nat) :
    Nat → Nat → LineCtx → Option LineCtx
  | 0, _, ctx => some ctx
  | left + 1, y, ctx => do
    let ctx1 ← decodeLine hdr rec ctx width height stride y qt elemBits
    yuvLines hdr rec width height stride qt elemBits left (y + 1) ctx1

/-- The plane loop of `decode_slice_content_yuv`: zips planes with the
per-plane buffers (stopping at the shorter list, as `zip` does), re-slices
each buffer at the plane offset, decodes every line, and reassembles the
buffer list. -/
def yuvPlanes (hdr : SliceHeader) (rec : ConfigRecord) (elemBits : Nat) :
    List SlicePlane → List (List Nat) → Coder → List (List (List Nat)) →
    List (List GolombState) →
    Option (Coder × List (List (List Nat)) × List (List GolombState) ×
      List (List Nat))
  | [], bufs, coder, st, gst => some (coder, st, gst, bufs)
  | _ :: _, [], coder, st, gst => some (coder, st, gst, [])
  | plane :: ps, b :: bs, coder, st, gst => do
    let coder1 := match coder with
      | .golomb g => Coder.golomb (g.newPlane plane.width)
      | .range rc => Coder.range rc
    let sub ← dropFrom b plane.offset
    let lctx ← yuvLines hdr rec plane.width plane.height plane.stride
      plane.quant elemBits plane.height 0
      { coder := coder1, state := st, golomb_state := gst, buf := sub }
    let rest ← yuvPlanes hdr rec elemBits ps bs lctx.coder lctx.state
      lctx.golomb_state
    some (rest.1, rest.2.1, rest.2.2.1,
      (b.take plane.offset ++ lctx.buf) :: rest.2.2.2)

/-- Method `decode_slice_content_yuv`: planes are independent; each is
decoded in full before the next. -/
def decodeSliceContentYuv (slice : Slice) (rec : ConfigRecord) (coder : Coder)
    (bufs : List (List Nat)) (elemBits : Nat) :
    Option (Coder × Slice × List (List Nat)) := do
  let r ← yuvPlanes slice.header rec elemBits slice.planes bufs coder
    slice.state slice.golomb_state
  some (r.1, { slice with state := r.2.1, golomb_state := r.2.2.1 }, r.2.2.2)

/-- Inner plane loop of `decode_slice_content_rct` for a single line `y`:
all planes share the geometry of plane 0, only the quantizer index varies. -/
def rctPlanesLine (hdr : SliceHeader) (rec : ConfigRecord)
    (width height stride offset elemBits y : Nat) :
    List SlicePlane → List (List Nat) → Coder → List (List (List Nat)) →
    List (List GolombState) →
    Option (Coder × List (List (List Nat)) × List (List GolombState) ×
      List (List Nat))
  | [], bufs, coder, st, gst => some (coder, st, gst, bufs)
  | _ :: _, [], coder, st, gst => some (coder, st, gst, [])
  | plane :: ps, b :: bs, coder, st, gst => do
    let sub ← dropFrom b offset
    let lctx ← decodeLine hdr rec
      { coder := coder, state := st, golomb_state := gst, buf := sub }
      width height stride y plane.quant elemBits
    let rest ← rctPlanesLine hdr rec width height stride offset elemBits y
      ps bs lctx.coder lctx.state lctx.golomb_state
    some (rest.1, rest.2.1, rest.2.2.1,
      (b.take offset ++ lctx.buf) :: rest.2.2.2)

/-- Outer `y` loop of `decode_slice_content_rct`: all planes are decoded
line by line, interleaved. -/
def rctLines (hdr : SliceHeader) (rec : ConfigRecord)
    (width height stride offset elemBits : Nat) (planes : List SlicePlane) :
    Nat → Nat → List (List Nat) → Coder → List (List (List Nat)) →
    List (List GolombState) →
    Option (Coder × List (List (List Nat)) × List (List GolombState) ×
      List (List Nat))
  | 0, _, bufs, coder, st, gst => some (coder, st, gst, bufs)
  | left + 1, y, bufs, coder, st, gst => do
    let r ← rctPlanesLine hdr rec width height stride offset elemBits y
      planes bufs coder st gst
    rctLines hdr rec width height stride offset elemBits planes left (y + 1)
      r.2.2.2 r.1 r.2.1 r.2.2.1

/-- Method `decode_slice_content_rct`: geometry comes from plane 0, a
Golomb coder sees a single `new_plane` call at slice start, then the lines
are decoded interleaved across planes. -/
def decodeSliceContentRct (slice : Slice) (rec : ConfigRecord) (coder : Coder)
    (bufs : List (List Nat)) (elemBits : Nat) :
    Option (Coder × Slice × List (List Nat)) := do
  let p0 ← slice.planes.get? 0
  let coder1 := match coder with
    | .golomb g => Coder.golomb (g.newPlane p0.width)
    | .range rc => Coder.range rc
  let r ← rctLines slice.header rec p0.width p0.height p0.stride p0.offset
    elemBits slice.planes p0.height 0 bufs coder1 slice.state
    slice.golomb_state
  some (r.1, { slice with state := r.2.1, golomb_state := r.2.2.1 }, r.2.2.2)

/-! ## Inverse JPEG2000-RCT (`jpeg2000rct.rs`) -/

/-- Nested pixel loop shared by the RCT variants. -/
def rctLoop (f : List (List Nat) → Nat → Nat → Option (List (List Nat)))
    (height width : Nat) (d : List (List Nat)) : Option (List (List Nat)) :=
  (List.range height).foldlM
    (fun d y => (List.range width).foldlM (fun d x => f d y x) d) d

/-- Stores value `v` at index `i` of plane `p` of a plane set, failing on
either index being out of bounds (the Rust write `dst[p][i] = v`). -/
def writePlane (d : List (List Nat)) (p i v : Nat) :
    Option (List (List Nat)) := do
  let row ← d.get? p
  let row1 ← setAt row i v
  setAt d p row1

/-- The 9-bit variant `impl RCT<u16> for u8`: 16-bit intermediates to 8-bit
GBR output, with the alpha plane copied through when present. -/
def rct8 (dst src : List (List Nat)) (width height stride offset : Nat) :
    Option (List (List Nat)) := do
  let s0 ← src.get? 0
  let s1 ← src.get? 1
  let s2 ← src.get? 2
  let Y ← dropFrom s0 offset
  let Cb ← dropFrom s1 offset
  let Cr ← dropFrom s2 offset
  let d1 ← rctLoop
    (fun d y x => do
      let cb ← Cb.get? (y * stride + x)
      let cr ← Cr.get? (y * stride + x)
      let yv ← Y.get? (y * stride + x)
      let Cbtmp := (cb : Int) - 256
      let Crtmp := (cr : Int) - 256
      let green := (yv : Int) - (Cbtmp + Crtmp).fdiv 4
      let red := Crtmp + green
      let blue := Cbtmp + green
      let d ← writePlane d 0 (offset + y * stride + x) (green.emod 256).toNat
      let d ← writePlane d 1 (offset + y * stride + x) (blue.emod 256).toNat
      writePlane d 2 (offset + y * stride + x) (red.emod 256).toNat)
    height width dst
  if src.length = 4 then do
    let s3 ← src.get? 3
    let sa ← dropFrom s3 offset
    let d3 ← d1.get? 3
    let da ← dropFrom d3 offset
    let da1 ← rctLoop
      (fun d y x => do
        let v ← sa.get? (y * stride + x)
        writePlane d 0 (y * stride + x) (v % 256))
      height width [da]
    let daL ← da1.get? 0
    setAt d1 3 (d3.take offset ++ daL)
  else some d1

/-- The 10-to-16-bit in-place variant `impl RCT<u8> for u16`. The
`Cbtmp + Crtmp` sum is an `i32` addition that can wrap for 15-bit inputs
before the arithmetic shift, so it is reduced with `i32wrap` first. -/
def rct16 (dst : List (List Nat)) (width height stride offset bits : Nat) :
    Option (List (List Nat)) :=
  rctLoop
    (fun d y x => do
      let s1 ← d.get? 1
      let v1 ← s1.get? (offset + y * stride + x)
      let s2 ← d.get? 2
      let v2 ← s2.get? (offset + y * stride + x)
      let Cbtmp := i32wrap (((v1 : Int) - 1) * (2 ^ bits : Nat))
      let Crtmp := i32wrap (((v2 : Int) - 1) * (2 ^ bits : Nat))
      let s0 ← d.get? 0
      let v0 ← s0.get? (offset + y * stride + x)
      let blue := (v0 : Int) - (i32wrap (Cbtmp + Crtmp)).fdiv 4
      let red := Crtmp + blue
      let green := Cbtmp + blue
      let d ← writePlane d 0 (offset + y * stride + x) (green.emod 65536).toNat
      let d ← writePlane d 1 (offset + y * stride + x) (blue.emod 65536).toNat
      writePlane d 2 (offset + y * stride + x) (red.emod 65536).toNat)
    height width dst

/-- The 17-bit variant `impl RCT<u32> for u16`: 32-bit intermediates to
16-bit GBR output, with the alpha plane copied through when present. -/
def rct32 (dst src : List (List Nat)) (width height stride offset : Nat) :
    Option (List (List Nat)) := do
  let s0 ← src.get? 0
  let s1 ← src.get? 1
  let s2 ← src.get? 2
  let Y ← dropFrom s0 offset
  let Cb ← dropFrom s1 offset
  let Cr ← dropFrom s2 offset
  let d1 ← rctLoop
    (fun d y x => do
      let cb ← Cb.get? (y * stride + x)
      let cr ← Cr.get? (y * stride + x)
      let yv ← Y.get? (y * stride + x)
      let Cbtmp := (cb : Int) - 65536
      let Crtmp := (cr : Int) - 65536
      let green := (yv : Int) - (Cbtmp + Crtmp).fdiv 4
      let red := Crtmp + green
      let blue := Cbtmp + green
      let d ← writePlane d 0 (offset + y * stride + x) (green.emod 65536).toNat
      let d ← writePlane d 1 (offset + y * stride + x) (blue.emod 65536).toNat
      writePlane d 2 (offset + y * stride + x) (red.emod 65536).toNat)
    height width dst
  if src.length = 4 then do
    let s3 ← src.get? 3
    let sa ← dropFrom s3 offset
    let d3 ← d1.get? 3
    let da ← dropFrom d3 offset
    let da1 ← rctLoop
      (fun d y x => do
        let v ← sa.get? (y * stride + x)
        writePlane d 0 (y * stride + x) (v % 65536))
      height width [da]
    let daL ← da1.get? 0
    setAt d1 3 (d3.take offset ++ daL)
  else some d1

/-- Method `Decoder::decode_slice_content`: the dispatch over colorspace
and bit depth. YCbCr decodes 8-bit planes into `buf`, 16-bit planes into
`buf16`, and does nothing for other depths; RGB decodes into the scratch
set for its depth class and applies the matching inverse RCT. -/
def decodeSliceContent (slice : Slice) (rec : ConfigRecord) (coder : Coder)
    (frame : Frame) : Option (Coder × Slice × Frame) := do
  if rec.colorspace_type ≠ 1 then
    if rec.bits_per_raw_sample = 8 then do
      let r ← decodeSliceContentYuv slice rec coder frame.buf 8
      some (r.1, r.2.1, { frame with buf := r.2.2 })
    else if rec.bits_per_raw_sample = 16 then do
      let r ← decodeSliceContentYuv slice rec coder frame.buf16 16
      some (r.1, r.2.1, { frame with buf16 := r.2.2 })
    else some (coder, slice, frame)
  else do
    let p0 ← slice.planes.get? 0
    if rec.bits_per_raw_sample = 8 then do
      let r ← decodeSliceContentRct slice rec coder frame.buf16 16
      let frame1 := { frame with buf16 := r.2.2 }
      let b ← rct8 frame1.buf frame1.buf16 p0.width p0.height p0.stride
        p0.offset
      some (r.1, r.2.1, { frame1 with buf := b })
    else if 9 ≤ rec.bits_per_raw_sample ∧ rec.bits_per_raw_sample ≤ 15 ∧
        rec.extra_plane = false then do
      let r ← decodeSliceContentRct slice rec coder frame.buf16 16
      let b ← rct16 r.2.2 p0.width p0.height p0.stride p0.offset
        rec.bits_per_raw_sample
      some (r.1, r.2.1, { frame with buf16 := b })
    else do
      let r ← decodeSliceContentRct slice rec coder frame.buf32 32
      let frame1 := { frame with buf32 := r.2.2 }
      let b ← rct32 frame1.buf16 frame1.buf32 p0.width p0.height p0.stride
        p0.offset
      some (r.1, r.2.1, { frame1 with buf16 := b })

/-! ## Slice decoding and the frame driver (`decoder.rs`) -/

/-- Method `Decoder::reset_slice_states`: range contexts reload from
`initial_states`; with the Golomb coder (`coder_type == 0`) the VLC states
are rebuilt as default-filled rows sized by `context_count[..count]`. A
negative `context_count` entry would make the source allocate a wrapped
huge vector (an abort), modelled as `none`. -/
def resetSliceStates (slice : Slice) (rec : ConfigRecord) : Option Slice := do
  let slice1 := { slice with state := rec.initial_states }
  if rec.coder_type = 0 then do
    let cnt := rec.quant_table_set_count
    if cnt ≤ rec.context_count.length then
      let taken := rec.context_count.take cnt
      if taken.all (fun len => 0 ≤ len) then
        some { slice1 with
                 golomb_state := taken.map fun len =>
                   List.replicate len.toNat GolombState.default }
      else none
    else none
  else some slice1

/-- Tail of `Decoder::decode_slice` after the integrity checks: keyframe
state reset, a fresh range coder over the slice bytes, the skipped keyframe
bit on slice 0, the custom transition table for `coder_type == 2`, the
slice header, the optional switch to a Golomb coder at the sentinel
position, and the content decode. This region of the source returns no
`Err` of its own — all its failures are panics. -/
def decodeSliceRest (table : List Nat) (rec : ConfigRecord)
    (stateTransition : List Nat) (keyframe : Bool) (info : SliceInfo)
    (cur : Slice) (buf : List Nat) (slicenum : Nat) (frame : Frame) :
    Option (Frame × Slice) := do
  let cur1 ← (if keyframe then resetSliceStates cur rec else some cur)
  let sbuf ← dropFrom buf info.pos
  let coder ← RangeCoder.new table sbuf
  let coder ← (if slicenum = 0 then do
      let r ← coder.br (List.replicate 32 128)
      some r.2.2
    else some coder)
  let coder := if rec.coder_type = 2 then coder.setTable stateTransition
               else coder
  let ph ← parseSliceHeader rec cur1 coder
  let coderV ← (if rec.coder_type = 0 then do
      let c2 := ph.2.sentinalEnd
      let off : Int := (c2.getPos : Int) - 1
      let start : Int := (info.pos : Int) + off
      if start < 0 then none
      else do
        let gbuf ← dropFrom buf start.toNat
        some (Coder.golomb (GolombCoder.new gbuf))
    else some (Coder.range ph.2))
  let r ← decodeSliceContent ph.1 rec coderV frame
  some (r.2.2, r.2.1)

/-- The integrity-check window of `decode_slice`:
`&buf[pos..][..size + 8]` (the slice payload plus its 8-byte footer). -/
def sliceBytes (buf : List Nat) (info : SliceInfo) : Option (List Nat) := do
  let first ← dropFrom buf info.pos
  takeTo first (info.size + 8)

/-- Method `Decoder::decode_slice`: looks up the slice record, runs the
`ec == 1` integrity checks (non-zero `error_status` is a `SliceError`, a
non-zero CRC over `buf[pos .. pos + size + 8]` is `InvalidInputData`), then
the infallible-but-panicking remainder. -/
def decodeSlice (table : List Nat) (rec : ConfigRecord)
    (stateTransition : List Nat) (cf : InternalFrame) (buf : List Nat)
    (slicenum : Nat) (frame : Frame) : Option (Except Error (Frame × Slice)) := do
  let info ← cf.slice_info.get? slicenum
  let cur ← cf.slices.get? slicenum
  if rec.ec = 1 then
    if info.error_status ≠ 0 then
      some (.error (.SliceError
        ("error_status is non-zero: " ++ Nat.repr info.error_status)))
    else do
      let sliceEnd ← sliceBytes buf info
      if crc32_mpeg2 sliceEnd ≠ 0 then
        some (.error (.InvalidInputData "CRC mismatch"))
      else do
        let r ← decodeSliceRest table rec stateTransition cf.keyframe info cur
          buf slicenum frame
        some (.ok r)
  else do
    let r ← decodeSliceRest table rec stateTransition cf.keyframe info cur
      buf slicenum frame
    some (.ok r)

/-- Method `Decoder::parse_footers`: counts the slices from the footers,
allocates default slices, and for a non-keyframe demands the same count as
the previous frame and carries over the adaptive states. -/
def parseFooters (rec : ConfigRecord) (cf : InternalFrame) (buf : List Nat) :
    Option (Except Error InternalFrame) := do
  let si ← countSlices buf (rec.ec != 0)
  let slices0 := List.replicate si.length Slice.default
  if cf.keyframe = false then
    if slices0.length ≠ cf.slices.length then
      some (.error (.SliceError
        "inter frames must have the same number of slices as the preceding intra frame"))
    else
      let slices1 := (slices0.zip cf.slices).map
        fun p => { p.1 with state := p.2.state }
      let slices2 :=
        if rec.coder_type = 0 then
          (slices1.zip cf.slices).map
            fun p => { p.1 with golomb_state := p.2.golomb_state }
        else slices1
      some (.ok { cf with slice_info := si, slices := slices2 })
  else some (.ok { cf with slice_info := si, slices := slices0 })

/-- The sequential slice loop of `Decoder::decode_frame`: decodes slice `i`
onward (the fuel is the number of slices left), stores each updated slice
back, and wraps any slice failure as
`SliceError("slice {i} failed: {err}")`. -/
def sliceLoop (table : List Nat) (rec : ConfigRecord)
    (stateTransition : List Nat) (buf : List Nat) :
    Nat → Nat → InternalFrame → Frame →
    Option (Except Error (Frame × InternalFrame))
  | 0, _, cf, frame => some (.ok (frame, cf))
  | left + 1, i, cf, frame => do
    let r ← decodeSlice table rec stateTransition cf buf i frame
    match r with
    | .error e =>
      some (.error (.SliceError
        ("slice " ++ Nat.repr i ++ " failed: " ++ e.display)))
    | .ok fr =>
      sliceLoop table rec stateTransition buf left (i + 1)
        { cf with slices := cf.slices.set i fr.2 } fr.1

/-- Plane allocation of `decode_frame` for one buffer family: a vector of
`numPlanes` empty planes with plane 0 (and, conditionally, 1, 2 and 3)
zero-filled. Writing plane 3 of a two-plane vector — `extra_plane` without
`chroma_planes` — is the source's index panic. -/
def allocPlanes (numPlanes fullSize chromaSize : Nat) (chroma extra : Bool) :
    Option (List (List Nat)) := do
  let b := List.replicate numPlanes ([] : List Nat)
  let b ← setAt b 0 (List.replicate fullSize 0)
  let b ← (if chroma then do
      let b ← setAt b 1 (List.replicate chromaSize 0)
      setAt b 2 (List.replicate chromaSize 0)
    else some b)
  if extra then setAt b 3 (List.replicate fullSize 0) else some b

/-- Frame allocation of `decode_frame` (its opening section): the output
`Frame` metadata and the zero-filled plane families demanded by the bit
depth and colorspace. -/
def allocFrame (rc : ConfigRecord) : Option Frame := do
  let M := 4294967296
  let numPlanes := 1 + (if rc.chroma_planes then 2 else 0) +
    (if rc.extra_plane then 1 else 0)
  let fullSize := (rc.width * rc.height) % M
  let chromaWidth := rc.width >>> rc.log2_h_chroma_subsample
  let chromaHeight := rc.height >>> rc.log2_v_chroma_subsample
  let chromaSize := (chromaWidth * chromaHeight) % M
  let frame0 : Frame :=
    { buf := [], buf16 := [], buf32 := [], width := rc.width,
      height := rc.height, bit_depth := rc.bits_per_raw_sample,
      color_space := rc.colorspace_type, has_chroma := rc.chroma_planes,
      has_alpha := rc.extra_plane,
      chroma_subsample_v :=
        if rc.chroma_planes then rc.log2_v_chroma_subsample else 0,
      chroma_subsample_h :=
        if rc.chroma_planes then rc.log2_h_chroma_subsample else 0 }
  let frame1 ← (if rc.bits_per_raw_sample = 8 then do
      let b ← allocPlanes numPlanes fullSize chromaSize rc.chroma_planes
        rc.extra_plane
      some { frame0 with buf := b }
    else some frame0)
  let frame2 ← (if rc.bits_per_raw_sample > 8 ∨ rc.colorspace_type = 1 then do
      let b ← allocPlanes numPlanes fullSize chromaSize rc.chroma_planes
        rc.extra_plane
      some { frame1 with buf16 := b }
    else some frame1)
  if rc.bits_per_raw_sample = 16 ∧ rc.colorspace_type = 1 then do
    let b := List.replicate numPlanes ([] : List Nat)
    let b ← setAt b 0 (List.replicate fullSize 0)
    let b ← setAt b 1 (List.replicate fullSize 0)
    let b ← setAt b 2 (List.replicate fullSize 0)
    let b ← (if rc.extra_plane then setAt b 3 (List.replicate fullSize 0)
      else some b)
    some { frame2 with buf32 := b }
  else some frame2

/-- Method `Decoder::decode_frame`: output-frame allocation (`allocFrame`),
the keyframe probe, the footer scan (failures wrapped as
`FrameError("invalid frame footer: {err}")`), the sequential slice loop,
and the scratch-buffer cleanup. -/
def decodeFrame (table : List Nat) (dec : Decoder) (frameInput : List Nat) :
    Option (Except Error (Frame × Decoder)) := do
  let rc := dec.record
  let frame3 ← allocFrame rc
  let kf ← isKeyframe table frameInput
  let cf0 := { dec.current_frame with keyframe := kf }
  let pf ← parseFooters rc cf0 frameInput
  match pf with
  | .error e =>
    some (.error (.FrameError ("invalid frame footer: " ++ e.display)))
  | .ok cf1 => do
    let lr ← sliceLoop table rc dec.state_transition frameInput
      cf1.slices.length 0 cf1 frame3
    match lr with
    | .error e => some (.error e)
    | .ok fr =>
      let frame4 := fr.1
      let frame5 :=
        if rc.bits_per_raw_sample = 8 ∧ rc.colorspace_type = 1 then
          { frame4 with buf16 := [] }
        else frame4
      let frame6 := { frame5 with buf32 := [] }
      some (.ok (frame6, { dec with current_frame := fr.2 }))

/-! ## Configuration record (`record.rs`) and `Decoder::new` -/

/-- Wraps an unbounded integer to two's-complement `i16` semantics. -/
def i16wrap (x : Int) : Int :=
  (x + 32768) % 65536 - 32768

/-- Inner run of the quantization-table read loop: writes `(scale * v) as
i16` into `cnt` consecutive entries starting at `k`; an entry index past
255 is the source's array-bounds panic. -/
def fillRun : Nat → List Int → Int → Int → Nat → Option (List Int × Nat)
  | 0, row, _, _, k => some (row, k)
  | n + 1, row, scale, v, k => do
    let row1 ← setAt row k (i16wrap (i32wrap (scale * v)))
    fillRun n row1 scale v (k + 1)

/-- The `while k < 128` fill loop of `parse_config_record` for one context
input: reads `len_minus1`, fills `len_minus1 + 1` entries with `scale * v`,
and increments `v`. A `len_minus1 + 1` that wraps to zero would loop
forever in the source (modelled as `none`); otherwise `k` strictly grows,
so fuel 128 dominates. Returns the filled row, the final `v`, and the
updated read state. -/
def quantFill : Nat → List Nat → RangeCoder → List Int → Int → Int → Nat →
    Option (List Int × Int × List Nat × RangeCoder)
  | 0, _, _, _, _, _, _ => none
  | f + 1, st, c, row, scale, v, k =>
    if k < 128 then do
      let r ← c.ur st
      let cnt := (r.1 + 1) % 4294967296
      if cnt = 0 then none
      else do
        let fr ← fillRun cnt row scale v k
        quantFill f r.2.1 r.2.2 fr.1 scale (v + 1) fr.2
    else some (row, v, st, c)

/-- Mirroring step after filling the first half of a quantization row:
`qt[256-k] = -qt[k]` for `k` in `[1,127]` and `qt[128] = -qt[127]`. -/
def mirrorRow (row : List Int) : List Int :=
  (List.range 256).map fun idx =>
    if 129 ≤ idx ∧ idx ≤ 255 then -(row.getD (256 - idx) 0)
    else if idx = 128 then -(row.getD 127 0)
    else row.getD idx 0

/-- One quantization table set (the `j` loop over the five context inputs):
each input gets a fresh all-128 read state, a filled-and-mirrored row, and
`scale` grows by `2*v - 1` (i32 wrapping). Returns the five rows, the final
scale, and the coder. -/
def quantSet (c : RangeCoder) : Option (List (List Int) × Int × RangeCoder) :=
  (List.range 5).foldlM
    (fun acc _ => do
      let qf ← quantFill 128 (List.replicate 32 128) acc.2.2
        (List.replicate 256 0) acc.2.1 0 0
      let row := mirrorRow qf.1
      let scale1 := i32wrap (acc.2.1 * i32wrap (2 * qf.2.1 - 1))
      some (acc.1 ++ [row], scale1, qf.2.2.2))
    ([], 1, c)

/-- Reads `n` signed `as i16` symbols (the `state_transition_delta` loop,
which skips index 0). -/
def readDeltas : Nat → List Nat → RangeCoder → List Int →
    Option (List Int × List Nat × RangeCoder)
  | 0, st, c, acc => some (acc, st, c)
  | n + 1, st, c, acc => do
    let r ← c.sr st
    readDeltas n r.2.1 r.2.2 (acc ++ [i16wrap r.1])

/-- Reads one 32-entry row of `initial_state_delta` (`as i16` each). -/
def readDeltaRow (st : List Nat) (c : RangeCoder) :
    Option (List Int × List Nat × RangeCoder) :=
  (List.range 32).foldlM
    (fun acc _ => do
      let r ← acc.2.2.sr acc.2.1
      some (acc.1 ++ [i32wrap r.1 |> i16wrap], r.2.1, r.2.2))
    ([], st, c)

/-- Reads the `initial_state_delta` rows of one quant set when
`states_coded` is set. -/
def readDeltaRows : Nat → List Nat → RangeCoder → List (List Int) →
    Option (List (List Int) × List Nat × RangeCoder)
  | 0, st, c, acc => some (acc, st, c)
  | n + 1, st, c, acc => do
    let r ← readDeltaRow st c
    readDeltaRows n r.2.1 r.2.2 (acc ++ [r.1])

/-- State reconstruction of `parse_config_record`:
`initial_states[i][j][k] = (pred + delta) & 255` with `pred` the previous
row's entry, or 128 on the first row (the empty `prev` list makes `getD`
yield 128 there). -/
def reconStates : List (List Int) → List Nat → List (List Nat)
  | [], _ => []
  | row :: rest, prev =>
    let cur := (List.range row.length).map fun k =>
      (((prev.getD k 128 : Int) + row.getD k 0).emod 256).toNat
    cur :: reconStates rest cur

/-- First phase of `parse_config_record` (after the CRC gate): version,
micro_version, coder_type with their validations, and the optional 255
`state_transition_delta` reads. Returns
`(micro_version, coder_type, deltas, read state, coder)`. -/
def parseCfgA (table buf : List Nat) :
    Option (Except Error (Nat × Nat × List Int × List Nat × RangeCoder)) := do
  let c0 ← RangeCoder.new table buf
  let r1 ← c0.ur (List.replicate 32 128)
  if r1.1 % 256 ≠ 3 then
    some (.error (.InvalidConfiguration "only FFV1 version 3 is supported"))
  else do
    let r2 ← r1.2.2.ur r1.2.1
    if r2.1 % 256 < 1 then
      some (.error (.InvalidConfiguration
        "only FFV1 micro version >1 supported"))
    else do
      let r3 ← r2.2.2.ur r2.2.1
      let coderType := r3.1 % 256
      if coderType > 2 then
        some (.error (.InvalidConfiguration
          ("invalid coder_type: " ++ Nat.repr coderType)))
      else do
        let rd ← (if coderType > 1 then do
            let r ← readDeltas 255 r3.2.1 r3.2.2 []
            some ((0 : Int) :: r.1, r.2.1, r.2.2)
          else some (List.replicate 256 (0 : Int), r3.2.1, r3.2.2))
        some (.ok (r2.1 % 256, coderType, rd.1, rd.2.1, rd.2.2))

/-- Second phase: colorspace_type, bits_per_raw_sample (0 meaning 8) and
chroma_planes, with their validations against the coder type. Returns
`(colorspace_type, bits, chroma_planes, read state, coder)`. -/
def parseCfgB (coderType : Nat) (st : List Nat) (c : RangeCoder) :
    Option (Except Error (Nat × Nat × Bool × List Nat × RangeCoder)) := do
  let r4 ← c.ur st
  let colorspaceType := r4.1 % 256
  if colorspaceType > 1 then
    some (.error (.InvalidConfiguration
      ("invalid colorspace_type: " ++ Nat.repr colorspaceType)))
  else do
    let r5 ← r4.2.2.ur r4.2.1
    let bits0 := r5.1 % 256
    let bits := if bits0 = 0 then 8 else bits0
    if coderType = 0 ∧ bits ≠ 8 then
      some (.error (.InvalidConfiguration
        "golomb-rice mode cannot have >8bit per sample"))
    else do
      let r6 ← r5.2.2.br r5.2.1
      if colorspaceType = 1 ∧ r6.1 = false then
        some (.error (.InvalidConfiguration "RGB must contain chroma planes"))
      else some (.ok (colorspaceType, bits, r6.1, r6.2.1, r6.2.2))

/-- Third phase: the two chroma-subsample logs with the RGB validation,
extra_plane, the slice-grid counts and quant_table_set_count with its
bounds. Returns
`(log2_h, log2_v, extra, num_h, num_v, qtsc, read state, coder)`. -/
def parseCfgC (colorspaceType : Nat) (st : List Nat) (c : RangeCoder) :
    Option (Except Error
      (Nat × Nat × Bool × Nat × Nat × Nat × List Nat × RangeCoder)) := do
  let r7 ← c.ur st
  let log2h := r7.1 % 256
  if colorspaceType = 1 ∧ log2h ≠ 0 then
    some (.error (.InvalidConfiguration "RGB cannot be subsampled"))
  else do
    let r8 ← r7.2.2.ur r7.2.1
    let log2v := r8.1 % 256
    if colorspaceType = 1 ∧ log2v ≠ 0 then
      some (.error (.InvalidConfiguration "RGB cannot be subsampled"))
    else do
      let r9 ← r8.2.2.br r8.2.1
      let r10 ← r9.2.2.ur r9.2.1
      let r11 ← r10.2.2.ur r10.2.1
      let r12 ← r11.2.2.ur r11.2.1
      let qtsc := r12.1
      if qtsc = 0 then
        some (.error (.InvalidConfiguration
          "quant_table_set_count may not be zero"))
      else if qtsc > 8 then
        some (.error (.InvalidConfiguration
          ("too many quant tables: " ++ Nat.repr qtsc ++ " > 8")))
      else
        some (.ok (log2h, log2v, r9.1, r10.1 % 256, r11.1 % 256, qtsc,
          r12.2.1, r12.2.2))

/-- Fourth phase: the `quant_table_set_count` quantization table sets and
their context counts, over the pre-zeroed 8-set arrays. -/
def parseCfgTables (qtsc : Nat) (st : List Nat) (c : RangeCoder) :
    Option (List (List (List Int)) × List Int × List Nat × RangeCoder) :=
  (List.range qtsc).foldlM
    (fun acc i => do
      let qs ← quantSet acc.2.2.2
      let qt1 ← setAt acc.1 i qs.1
      let cc1 ← setAt acc.2.1 i ((i32wrap (qs.2.1 + 1)).tdiv 2)
      some (qt1, cc1, acc.2.2.1, qs.2.2))
    (List.replicate 8 (List.replicate 5 (List.replicate 256 (0 : Int))),
      List.replicate 8 (0 : Int), st, c)

/-- Fifth phase: the per-set `states_coded` flag and initial-state deltas
(all-zero rows when uncoded); a negative context count would make the
source allocate a wrapped huge vector (an abort). -/
def parseCfgDeltas (qtsc : Nat) (cc : List Int) (st : List Nat)
    (c : RangeCoder) :
    Option (List (List (List Int)) × List Nat × RangeCoder) :=
  (List.range qtsc).foldlM
    (fun acc i => do
      let cci := cc.getD i 0
      if cci < 0 then none
      else do
        let rb ← acc.2.2.br acc.2.1
        if rb.1 then do
          let r ← readDeltaRows cci.toNat rb.2.1 rb.2.2 []
          some (acc.1 ++ [r.1], r.2.1, r.2.2)
        else
          some (acc.1 ++ [List.replicate cci.toNat
            (List.replicate 32 (0 : Int))], rb.2.1, rb.2.2))
    ([], st, c)

/-- Assembles the parsed `ConfigRecord` (the struct literal at the end of
`parse_config_record`; `states_coded` is stored as `false` there). -/
def mkConfigRecord (micro coderType : Nat) (deltas : List Int)
    (colorspaceType bits : Nat) (chroma : Bool) (log2h log2v : Nat)
    (extra : Bool) (numH numV qtsc : Nat) (cc : List Int)
    (qts : List (List (List Int))) (isd : List (List (List Int)))
    (ec intra width height : Nat) : ConfigRecord :=
  { version := 3, micro_version := micro, coder_type := coderType,
    state_transition_delta := deltas, colorspace_type := colorspaceType,
    bits_per_raw_sample := bits, chroma_planes := chroma,
    log2_h_chroma_subsample := log2h, log2_v_chroma_subsample := log2v,
    extra_plane := extra, num_h_slices_minus1 := numH,
    num_v_slices_minus1 := numV, quant_table_set_count := qtsc,
    context_count := cc, quant_tables := qts, states_coded := false,
    initial_state_delta := isd,
    initial_states := isd.map (fun rows => reconStates rows []),
    ec := ec, intra := intra, width := width, height := height }

/-- Function `ConfigRecord::parse_config_record`: the CRC gate followed by
the five read phases and the final struct assembly; the trailing `ec` and
`intra` reads are truncated `as u8` as the source does. -/
def parseConfigRecord (table : List Nat) (buf : List Nat)
    (width height : Nat) : Option (Except Error ConfigRecord) := do
  if crc32_mpeg2 buf ≠ 0 then
    some (.error (.InvalidConfiguration
      "failed CRC check for configuration record"))
  else do
    let a ← parseCfgA table buf
    match a with
    | .error e => some (.error e)
    | .ok (micro, coderType, deltas, stA, cA) => do
      let b ← parseCfgB coderType stA cA
      match b with
      | .error e => some (.error e)
      | .ok (colorspaceType, bits, chroma, stB, cB) => do
        let cres ← parseCfgC colorspaceType stB cB
        match cres with
        | .error e => some (.error e)
        | .ok (log2h, log2v, extra, numH, numV, qtsc, stC, cC) => do
          let tbl ← parseCfgTables qtsc stC cC
          let dres ← parseCfgDeltas qtsc tbl.2.1 tbl.2.2.1 tbl.2.2.2
          let rEc ← dres.2.2.ur dres.2.1
          let rIntra ← rEc.2.2.ur rEc.2.1
          some (.ok (mkConfigRecord micro coderType deltas colorspaceType
            bits chroma log2h log2v extra numH numV qtsc tbl.2.1 tbl.1
            dres.1 (rEc.1 % 256) (rIntra.1 % 256) width height))

/-- Method `Decoder::initialize_states`: the custom transition table from
the default table plus the per-index deltas (skipping index 0), stored as
bytes. The `table` argument again stands in for the missing
`DEFAULT_STATE_TRANSITION` constant. -/
def initializeStates (table : List Nat) (rc : ConfigRecord) : List Nat :=
  (List.range 256).map fun i =>
    if i = 0 then 0
    else ((i16wrap ((table.getD i 0 : Int) +
      rc.state_transition_delta.getD i 0)).emod 256).toNat

/-- Constructor `Decoder::new`: dimension and emptiness validation, the
configuration-record parse with its error wrapped as
`InvalidInputData("invalid v3 configuration record: {err}")`, and the
initial decoder state. -/
def decoderNew (table : List Nat) (record : List Nat) (width height : Nat) :
    Option (Except Error Decoder) := do
  if width = 0 ∨ height = 0 then
    some (.error (.InvalidInputData
      ("invalid dimensions: " ++ Nat.repr width ++ "x" ++ Nat.repr height)))
  else if record.length = 0 then
    some (.error (.InvalidInputData "invalid record with length zero"))
  else do
    let pr ← parseConfigRecord table record width height
    match pr with
    | .error err =>
      some (.error (.InvalidInputData
        ("invalid v3 configuration record: " ++ err.display)))
    | .ok rc =>
      some (.ok
        { record := rc
          state_transition := initializeStates table rc
          current_frame :=
            { keyframe := false, slice_info := [], slices := [] } })

/-! ## Claim theorems -/

instance {e a : Type} [DecidableEq e] [DecidableEq a] :
    DecidableEq (Except e a)
  | .ok x, .ok y =>
    if h : x = y then isTrue (by rw [h])
    else isFalse (by intro hc; cases hc; exact h rfl)
  | .ok _, .error _ => isFalse (by intro hc; cases hc)
  | .error _, .ok _ => isFalse (by intro hc; cases hc)
  | .error x, .error y =>
    if h : x = y then isTrue (by rw [h])
    else isFalse (by intro hc; cases hc; exact h rfl)

/-- A concrete resting-state range coder used by several witnesses. -/
def rc0 : RangeCoder :=
  { buf := [], pos := 0, low := 0, rng := 0, cur_byte := -1,
    zero_state := List.replicate 256 0, one_state := List.replicate 256 0 }

/-- A concrete live range coder over two zero bytes: `low = 0`, so every
`get` decodes a zero bit, and every `ur` decodes the value 1. -/
def rcZ : RangeCoder :=
  { buf := [0, 0], pos := 2, low := 0, rng := 0xFF00, cur_byte := -1,
    zero_state := List.replicate 256 128, one_state := List.replicate 256 128 }

/-- A stand-in for the (absent) default state-transition table in concrete
runs; the runs below decode only zero bits, for which the table content is
irrelevant. -/
def tbl0 : List Nat := List.replicate 256 0

/-- A concrete configuration record: version-3 YCbCr, 12 bits per sample,
range coder with the default table, single slice grid, per-slice CRCs. -/
def rec0 : ConfigRecord :=
  { version := 3, micro_version := 1, coder_type := 1,
    state_transition_delta := List.replicate 256 0, colorspace_type := 0,
    bits_per_raw_sample := 12, chroma_planes := false,
    log2_h_chroma_subsample := 0, log2_v_chroma_subsample := 0,
    extra_plane := false, num_h_slices_minus1 := 0, num_v_slices_minus1 := 0,
    quant_table_set_count := 1, context_count := List.replicate 8 0,
    quant_tables := List.replicate 8 (List.replicate 5 (List.replicate 256 0)),
    states_coded := false, initial_state_delta := [], initial_states := [],
    ec := 1, intra := 0, width := 1, height := 1 }

/-- A freshly constructed decoder over `rec0` (no slices seen yet). -/
def dec0 : Decoder :=
  { record := rec0, state_transition := List.replicate 256 0,
    current_frame := { keyframe := false, slice_info := [], slices := [] } }

/-- The same decoder after a previous one-slice frame. -/
def dec2 : Decoder :=
  { dec0 with current_frame :=
      { keyframe := false, slice_info := [], slices := [Slice.default] } }

/-- An eight-byte all-zero packet: one slice of size 0 with a clean footer
when `ec = 1`. -/
def packet8 : List Nat := List.replicate 8 0

def AllZ (b : List (List Nat)) : Prop := ∀ p ∈ b, ∀ v ∈ p, v = 0

/-- An internal-frame record with one slice whose footer reported
`error_status = 5`, and a bare output frame, for the C3 witness. -/
def cfW : InternalFrame :=
  { keyframe := false, slice_info := [⟨0, 0, 5⟩], slices := [Slice.default] }

/-- An empty output frame value for concrete slice-loop runs. -/
def frameW : Frame :=
  { buf := [], buf16 := [], buf32 := [], width := 0, height := 0,
    bit_depth := 0, color_space := 0, has_chroma := false, has_alpha := false,
    chroma_subsample_v := 0, chroma_subsample_h := 0 }

/-- `rec0` with the alpha plane enabled (claim C9). -/
def recX : ConfigRecord :=
  { rec0 with extra_plane := true }

/-- A concrete `parse_slice_header` run over `recX` and the live coder. -/
def C9run : Option (Slice × RangeCoder) :=
  parseSliceHeader recX Slice.default rcZ

/-- The slice produced by `C9run`. -/
def slX : Slice := (C9run.getD (Slice.default, rcZ)).1

/-- The coder produced by `C9run`. -/
def cX : RangeCoder := (C9run.getD (Slice.default, rcZ)).2

/-- `rec0` with chroma planes and asymmetric subsampling (claim C10). -/
def recY : ConfigRecord :=
  { rec0 with
      chroma_planes := true
      log2_h_chroma_subsample := 1
      log2_v_chroma_subsample := 2 }

/-- A concrete `parse_slice_header` run over `recY` and the live coder. -/
def C10run : Option (Slice × RangeCoder) :=
  parseSliceHeader recY Slice.default rcZ

/-- The slice produced by `C10run`. -/
def slY : Slice := (C10run.getD (Slice.default, rcZ)).1

/-- The coder produced by `C10run`. -/
def cY : RangeCoder := (C10run.getD (Slice.default, rcZ)).2

/-- A two-slice-wide YCbCr record with `log2_v_chroma_subsample = 31`, for
which the chroma divisor `1i32 << 31` is negative (claim C10). -/
def recZ31 : ConfigRecord :=
  { rec0 with
      chroma_planes := true
      log2_v_chroma_subsample := 31
      width := 2
      num_h_slices_minus1 := 1 }

/-- The concrete `symbol` output used by the claim C6 witness. -/
def C6out : Int × List Nat × RangeCoder :=
  (rcZ.symbol (List.replicate 32 128) false).getD (0, [], rcZ)

/-- A slice header whose quant-table-set index list holds table 0 (claim
C7). -/
def hdrW : SliceHeader :=
  { slice_width_minus1 := 0, slice_height_minus1 := 0, slice_x := 0,
    slice_y := 0, quant_table_set_index := [0], picture_structure := 0,
    sar_num := 0, sar_den := 0 }

/-- A one-sample line context over the live coder with a fresh context
vector (claim C7). -/
def ctxW : LineCtx :=
  { coder := Coder.range rcZ, state := [[List.replicate 32 128]],
    golomb_state := [], buf := [0] }

/-- The concrete one-sample decode used by the claim C7 witness. -/
def C7run : Option LineCtx :=
  decodeSample hdrW rec0 ctxW 1 1 1 0 0 0 16

/-- The line context produced by `C7run`. -/
def ctxW' : LineCtx := C7run.getD ctxW

/-- Claim C7, the sample value in the claim's own words: `pred + diff`
masked to the low `S` bits (the `& ((1 << S) - 1)` of the source is `emod
2^S`), with `S = bits_per_raw_sample + 1` for RGB and `bits_per_raw_sample`
otherwise, `pred = median(l, t, l+t-tl)` with
`median(a,b,c) = a + b + c - min(a, min(b,c)) - max(a, max(b,c))`, and only
on the YCbCr/16-bit/Golomb path `l`, `t`, `tl` first sign-extended from 16
bits (values at least 32768 reduced by 65536). -/
def claimSampleValue (rec : ConfigRecord) (isG : Bool)
    (l t tl diff : Int) : Int :=
  let med := fun a b c : Int => a + b + c - min a (min b c) - max a (max b c)
  let S := if rec.colorspace_type = 1 then rec.bits_per_raw_sample + 1
           else rec.bits_per_raw_sample
  let pred :=
    if rec.colorspace_type = 0 ∧ rec.bits_per_raw_sample = 16 ∧ isG = true then
      let l16 := if 32768 ≤ l then l - 65536 else l
      let t16 := if 32768 ≤ t then t - 65536 else t
      let tl16 := if 32768 ≤ tl then tl - 65536 else tl
      med l16 t16 (l16 + t16 - tl16)
    else med l t (l + t - tl)
  (pred + diff).emod (2 ^ S)

set_option maxRecDepth 100000

/-! ## Claim C1: slice layout via the footer walk -/

/-- Claim C1. The claim asserts the footer holds 3 bytes of big-endian
slice_size plus 1 byte of error_status, for a total footer size of 4 when
`ec = 0` and 8 when `ec = 1`. The code instead uses a footer size of 3 when
`ec = 0` (`footer_size = 3`, incremented by 5 only when `ec` is set), while
still reading the error_status byte at `end - footer_size + 3`, which for
`ec = 0` lies one byte past the footer — at the first step this is the index
`buf.len()` itself, an out-of-bounds read. On the concrete 4-byte packet of
zeros the walk of the claim succeeds with one slice, while the code's walk
panics. -/
theorem C1_counterexample :
    countSlices [0, 0, 0, 0] false = none ∧
      countSlicesClaim [0, 0, 0, 0] false = some [⟨0, 0, 0⟩] := by
  decide

/-- Claim C1, amended: when `ec = 1` the slice layout walk is exactly as the
claim describes it (8-byte footer: 3-byte big-endian size, error_status at
offset 3, 4-byte CRC parity); when `ec = 0` the code uses a footer size of 3,
not 4, and its unconditional error_status read at `end - footer_size + 3`
is out of bounds on the first step, so locating slices panics on every
non-empty packet. -/
theorem C1_theorem :
    (∀ buf : List Nat, countSlices buf true = countSlicesClaim buf true) ∧
      (∀ buf : List Nat, buf ≠ [] → countSlices buf false = none) := by
  constructor
  · intro buf
    rfl
  · intro buf hne
    match buf with
    | [] => exact absurd rfl hne
    | a :: l =>
      show (countSlicesGo (a :: l) 3 (l.length + 1) (l.length + 1) []).map
            List.reverse = none
      rw [countSlicesGo]
      rw [if_neg (Nat.succ_ne_zero l.length)]
      by_cases h3 : l.length + 1 < 3
      · rw [if_pos h3]; rfl
      · rw [if_neg h3]
        have hes : l[l.length - 2 + 2]? = none := by
          apply List.getElem?_eq_none_iff.mpr
          omega
        cases hb0 : (a :: l).get? (l.length + 1 - 3) with
        | none => simp [hb0]
        | some b0 =>
          cases hb1 : (a :: l).get? (l.length + 1 - 3 + 1) with
          | none => simp [hb0, hb1]
          | some b1 =>
            cases hb2 : (a :: l).get? (l.length + 1 - 3 + 2) with
            | none => simp [hb0, hb1, hb2]
            | some b2 => simp [hb0, hb1, hb2, hes]

/-- Witness for `C1_theorem`: the non-emptiness hypothesis discharged at the
one-byte packet. -/
theorem C1_witness : countSlices [0] false = none :=
  C1_theorem.2 [0] (by decide)

/-- Reading a mapped range at an in-range index yields the mapped value. -/
theorem getD_map_range (f : Nat → Nat) (n i : Nat) (h : i < n) :
    ((List.range n).map f).getD i 0 = f i := by
  simp [List.getD, List.getElem?_map, List.getElem?_range h]

/-! ### Claim C8: `set_table` state symmetry -/

/-- Claim C8, counterexample. The claim quantifies over every 256-entry
table, but for a table whose entry at `256 - i` is zero the derived
`zero_state[i]` is `(256 - 0) as u8 = 0`, so the sum is 0, not 256: the
all-zero table at `i = 1` refutes the claim as stated. -/
theorem C8_counterexample :
    (rc0.setTable (List.replicate 256 0)).zero_state.getD 1 0 +
      (rc0.setTable (List.replicate 256 0)).one_state.getD 255 0 ≠ 256 := by
  decide

/-- Claim C8, amended: for every table passed to `set_table` and every `i`
in `[1,254]` whose entry at `256 - i` is a non-zero byte, the derived
`zero_state` satisfies `zero_state[i] + one_state[256-i] = 256`; when that
entry is zero the u8 cast makes `zero_state[i] = 0` and the sum is 0. -/
theorem C8_theorem (c : RangeCoder) (table : List Nat) (i : Nat)
    (h1 : 1 ≤ i) (h2 : i ≤ 254) (hpos : 0 < table.getD (256 - i) 0)
    (hlt : table.getD (256 - i) 0 < 256) :
    (c.setTable table).zero_state.getD i 0 +
      (c.setTable table).one_state.getD (256 - i) 0 = 256 := by
  show ((List.range 256).map fun j =>
      if 1 ≤ j ∧ j < 255 then (256 - table.getD (256 - j) 0) % 256
      else c.zero_state.getD j 0).getD i 0 + table.getD (256 - i) 0 = 256
  rw [getD_map_range _ 256 i (by omega)]
  rw [if_pos ⟨h1, by omega⟩]
  rw [Nat.mod_eq_of_lt (by omega)]
  omega

/-- Witness for `C8_theorem` at the constant-128 table and `i = 1`. -/
theorem C8_witness :
    (rc0.setTable (List.replicate 256 128)).zero_state.getD 1 0 +
      (rc0.setTable (List.replicate 256 128)).one_state.getD (256 - 1) 0 =
      256 :=
  C8_theorem rc0 (List.replicate 256 128) 1 (by decide) (by decide)
    (by decide) (by decide)

/-! ### Claim C4: CRC failure at decoder construction -/

/-- Claim C4, counterexample. A record with a non-zero CRC does fail
construction, but `Decoder::new` wraps the parser's `InvalidConfiguration`
into `InvalidInputData("invalid v3 configuration record: {err}")`, so the
kind surfaced to the caller is `InvalidInputData`, and its message begins
"invalid v3 configuration record", not "failed CRC check". -/
theorem C4_counterexample :
    decoderNew tbl0 [1] 1 1 = some (.error (.InvalidInputData
      "invalid v3 configuration record: Invalid configuration: failed CRC check for configuration record")) ∧
      Error.isInvalidConfiguration (.InvalidInputData
        "invalid v3 configuration record: Invalid configuration: failed CRC check for configuration record") =
        false := by
  constructor
  · decide
  · decide

/-- Claim C4, amended: for every non-empty configuration blob with non-zero
CRC-MPEG2 and positive dimensions, `Decoder::new` fails, and the surfaced
error is `InvalidInputData` whose message wraps the parser's
`InvalidConfiguration("failed CRC check for configuration record")`. -/
theorem C4_theorem (table buf : List Nat) (w h : Nat) (hw : 0 < w)
    (hh : 0 < h) (hne : buf ≠ []) (hcrc : crc32_mpeg2 buf ≠ 0) :
    decoderNew table buf w h = some (.error (.InvalidInputData
      "invalid v3 configuration record: Invalid configuration: failed CRC check for configuration record")) := by
  unfold decoderNew
  rw [if_neg (by omega : ¬(w = 0 ∨ h = 0))]
  rw [if_neg (by simpa using hne : ¬buf.length = 0)]
  unfold parseConfigRecord
  rw [if_pos hcrc]
  rfl

/-- Witness for `C4_theorem` at a one-byte blob with non-zero CRC. -/
theorem C4_witness :
    decoderNew tbl0 [2] 2 3 = some (.error (.InvalidInputData
      "invalid v3 configuration record: Invalid configuration: failed CRC check for configuration record")) :=
  C4_theorem tbl0 [2] 2 3 (by decide) (by decide) (by decide) (by decide)

/-! ### Claim C5: panic-freedom on malformed input -/

/-- Claim C5 is refuted by the code: data-dependent panics exist. A
one-byte extradata blob `[0]` passes the CRC gate (its CRC is 0) and then
panics inside `RangeCoder::new`, which reads `buf[1]` unconditionally; an
empty frame packet panics the same way inside the `is_keyframe` probe of
`decode_frame`. Both are modelled as `none` (panic), not an `Error`. -/
theorem C5_theorem :
    crc32_mpeg2 [0] = 0 ∧ decoderNew tbl0 [0] 1 1 = none ∧
      decodeFrame tbl0 dec0 [] = none := by
  refine ⟨by decide, by decide, by decide⟩

/-! ### Claim C3: where SliceError arises -/

theorem decodeSlice_error_iff (table : List Nat) (rc : ConfigRecord) (tr : List Nat)
    (cf : InternalFrame) (buf : List Nat) (i : Nat) (frame : Frame)
    (e : Error) :
    decodeSlice table rc tr cf buf i frame = some (.error e) ↔
      ∃ info cur, cf.slice_info.get? i = some info ∧
        cf.slices.get? i = some cur ∧ rc.ec = 1 ∧
        ((info.error_status ≠ 0 ∧
            e = .SliceError
              ("error_status is non-zero: " ++ Nat.repr info.error_status)) ∨
          (info.error_status = 0 ∧
            ∃ se, sliceBytes buf info = some se ∧ crc32_mpeg2 se ≠ 0 ∧
              e = .InvalidInputData "CRC mismatch")) := by
  constructor
  · intro h
    unfold decodeSlice at h
    rcases hinfo : cf.slice_info.get? i with _ | info
    · rw [hinfo] at h; simp at h
    rcases hcur : cf.slices.get? i with _ | cur
    · rw [hinfo, hcur] at h; simp at h
    rw [hinfo, hcur] at h
    simp only [Option.bind_eq_bind, Option.some_bind] at h
    by_cases hec : rc.ec = 1
    · rw [if_pos hec] at h
      by_cases hes : info.error_status ≠ 0
      · rw [if_pos hes] at h
        refine ⟨info, cur, rfl, rfl, hec, Or.inl ⟨hes, ?_⟩⟩
        cases h; rfl
      · rw [if_neg hes] at h
        push_neg at hes
        rcases hse : sliceBytes buf info with _ | se
        · rw [hse] at h; simp at h
        rw [hse] at h
        simp only [Option.bind_eq_bind, Option.some_bind] at h
        by_cases hcrc : crc32_mpeg2 se ≠ 0
        · rw [if_pos hcrc] at h
          refine ⟨info, cur, rfl, rfl, hec, Or.inr ⟨hes, se, hse, hcrc, ?_⟩⟩
          cases h; rfl
        · rw [if_neg hcrc] at h
          rcases hrest : decodeSliceRest table rc tr cf.keyframe info cur buf
              i frame with _ | r
          · rw [hrest] at h; simp at h
          · rw [hrest] at h; simp at h
    · rw [if_neg hec] at h
      rcases hrest : decodeSliceRest table rc tr cf.keyframe info cur buf
          i frame with _ | r
      · rw [hrest] at h; simp at h
      · rw [hrest] at h; simp at h
  · rintro ⟨info, cur, hinfo, hcur, hec, hcase⟩
    unfold decodeSlice
    rw [hinfo, hcur]
    simp only [Option.bind_eq_bind, Option.some_bind]
    rw [if_pos hec]
    rcases hcase with ⟨hes, he⟩ | ⟨hes, se, hse, hcrc, he⟩
    · rw [if_pos hes, he]
    · rw [if_neg (by simpa using hes), hse]
      simp only [Option.bind_eq_bind, Option.some_bind]
      rw [if_pos hcrc, he]

theorem sliceLoop_error_shape (table : List Nat) (rc : ConfigRecord) (tr : List Nat)
    (buf : List Nat) :
    ∀ left i cf frame e,
      sliceLoop table rc tr buf left i cf frame = some (.error e) →
      e.isSliceError = true := by
  intro left
  induction left with
  | zero =>
    intro i cf frame e h
    simp [sliceLoop] at h
  | succ n ih =>
    intro i cf frame e h
    unfold sliceLoop at h
    rcases hds : decodeSlice table rc tr cf buf i frame with _ | r
    · rw [hds] at h; simp at h
    rw [hds] at h
    simp only [Option.bind_eq_bind, Option.some_bind] at h
    match r with
    | .error e1 =>
      simp only [] at h
      cases h
      rfl
    | .ok fr =>
      exact ih (i + 1) { cf with slices := cf.slices.set i fr.2 } fr.1 e h

theorem decodeFrame_mismatch_frameError (table : List Nat) (dec : Decoder) (buf : List Nat)
    (f3 : Frame) (infos : List SliceInfo)
    (halloc : allocFrame dec.record = some f3)
    (hkf : isKeyframe table buf = some false)
    (hcs : countSlices buf (dec.record.ec != 0) = some infos)
    (hmm : infos.length ≠ dec.current_frame.slices.length) :
    decodeFrame table dec buf = some (.error (.FrameError
      "invalid frame footer: Slice error: inter frames must have the same number of slices as the preceding intra frame")) := by
  simp only [decodeFrame]
  rw [halloc]
  simp only [Option.bind_eq_bind, Option.some_bind]
  rw [hkf]
  simp only [Option.bind_eq_bind, Option.some_bind]
  unfold parseFooters
  rw [hcs]
  simp only [Option.bind_eq_bind, Option.some_bind]
  simp only [List.length_replicate]
  rw [if_pos trivial, if_pos hmm]
  simp only [Option.some_bind]
  rfl

theorem allZ_set (l : List (List Nat)) (i : Nat) (n : Nat)
    (h : AllZ l) : AllZ (l.set i (List.replicate n 0)) := by
  intro p hp v hv
  rcases List.mem_or_eq_of_mem_set hp with hmem | rfl
  · exact h p hmem v hv
  · exact (List.eq_of_mem_replicate hv)

theorem setAt_allZ (l : List (List Nat)) (i n : Nat) (b : List (List Nat))
    (h : setAt l i (List.replicate n 0) = some b) (hz : AllZ l) : AllZ b := by
  unfold setAt at h
  split at h
  · cases h; exact allZ_set l i n hz
  · cases h

theorem allocPlanes_zero (numPlanes fullSize chromaSize : Nat) (ch ex : Bool)
    (b : List (List Nat))
    (h : allocPlanes numPlanes fullSize chromaSize ch ex = some b) :
    AllZ b := by
  unfold allocPlanes at h
  simp only [Option.bind_eq_bind, Option.bind_eq_some] at h
  obtain ⟨b0, hb0, h⟩ := h
  have hz0 : AllZ (List.replicate numPlanes ([] : List Nat)) := by
    intro p hp v hv
    rw [List.eq_of_mem_replicate hp] at hv
    cases hv
  have hzb0 : AllZ b0 := setAt_allZ _ _ _ _ hb0 hz0
  obtain ⟨b1, hb1, h⟩ := h
  have hzb1 : AllZ b1 := by
    rcases ch with _ | _
    · simp at hb1
      rw [← hb1]
      exact hzb0
    · simp only [Option.bind_eq_bind, Option.bind_eq_some, if_true] at hb1
      obtain ⟨bm, hbm, hb1⟩ := hb1
      exact setAt_allZ _ _ _ _ hb1 (setAt_allZ _ _ _ _ hbm hzb0)
  rcases ex with _ | _
  · simp at h
    rw [← h]
    exact hzb1
  · simp only [if_true] at h
    exact setAt_allZ _ _ _ _ h hzb1

theorem content_noop (slice : Slice) (rc : ConfigRecord) (coder : Coder)
    (frame : Frame) (hcs : rc.colorspace_type = 0)
    (h9 : 9 ≤ rc.bits_per_raw_sample) (h15 : rc.bits_per_raw_sample ≤ 15) :
    decodeSliceContent slice rc coder frame = some (coder, slice, frame) := by
  unfold decodeSliceContent
  rw [if_pos (by omega : rc.colorspace_type ≠ 1)]
  rw [if_neg (by omega : ¬rc.bits_per_raw_sample = 8)]
  rw [if_neg (by omega : ¬rc.bits_per_raw_sample = 16)]

theorem decodeSliceRest_frame_eq (table : List Nat) (rc : ConfigRecord) (tr : List Nat)
    (kf : Bool) (info : SliceInfo) (cur : Slice) (buf : List Nat) (i : Nat)
    (frame : Frame) (r : Frame × Slice)
    (hcs : rc.colorspace_type = 0) (h9 : 9 ≤ rc.bits_per_raw_sample)
    (h15 : rc.bits_per_raw_sample ≤ 15)
    (h : decodeSliceRest table rc tr kf info cur buf i frame = some r) :
    r.1 = frame := by
  unfold decodeSliceRest at h
  simp only [Option.bind_eq_bind, Option.bind_eq_some] at h
  obtain ⟨cur1, _, h⟩ := h
  obtain ⟨sbuf, _, h⟩ := h
  obtain ⟨c0, _, h⟩ := h
  obtain ⟨c1, _, h⟩ := h
  obtain ⟨ph, _, h⟩ := h
  obtain ⟨cv, _, h⟩ := h
  obtain ⟨rr, hrr, h⟩ := h
  rw [content_noop ph.1 rc cv frame hcs h9 h15] at hrr
  cases hrr
  cases h
  rfl

theorem decodeSlice_ok_frame_eq (table : List Nat) (rc : ConfigRecord) (tr : List Nat)
    (cf : InternalFrame) (buf : List Nat) (i : Nat) (frame : Frame)
    (r : Frame × Slice)
    (hcs : rc.colorspace_type = 0) (h9 : 9 ≤ rc.bits_per_raw_sample)
    (h15 : rc.bits_per_raw_sample ≤ 15)
    (h : decodeSlice table rc tr cf buf i frame = some (.ok r)) :
    r.1 = frame := by
  unfold decodeSlice at h
  simp only [Option.bind_eq_bind, Option.bind_eq_some] at h
  obtain ⟨info, _, h⟩ := h
  obtain ⟨cur, _, h⟩ := h
  split at h
  · split at h
    · simp at h
    · simp only [Option.bind_eq_bind, Option.bind_eq_some] at h
      obtain ⟨se, _, h⟩ := h
      split at h
      · simp at h
      · simp only [Option.bind_eq_bind, Option.bind_eq_some] at h
        obtain ⟨rr, hrr, h⟩ := h
        have hfr := decodeSliceRest_frame_eq table rc tr cf.keyframe info cur buf i frame rr
          hcs h9 h15 hrr
        cases h
        exact hfr
  · simp only [Option.bind_eq_bind, Option.bind_eq_some] at h
    obtain ⟨rr, hrr, h⟩ := h
    have hfr := decodeSliceRest_frame_eq table rc tr cf.keyframe info cur buf i frame rr
      hcs h9 h15 hrr
    cases h
    exact hfr

theorem sliceLoop_ok_frame_eq (table : List Nat) (rc : ConfigRecord) (tr : List Nat)
    (buf : List Nat)
    (hcs : rc.colorspace_type = 0) (h9 : 9 ≤ rc.bits_per_raw_sample)
    (h15 : rc.bits_per_raw_sample ≤ 15) :
    ∀ left i cf frame r,
      sliceLoop table rc tr buf left i cf frame = some (.ok r) →
      r.1 = frame := by
  intro left
  induction left with
  | zero =>
    intro i cf frame r h
    simp only [sliceLoop] at h
    cases h
    rfl
  | succ n ih =>
    intro i cf frame r h
    unfold sliceLoop at h
    simp only [Option.bind_eq_bind, Option.bind_eq_some] at h
    obtain ⟨dr, hdr, h⟩ := h
    match dr with
    | .error e1 => simp at h
    | .ok fr =>
      have h1 := ih (i + 1) { cf with slices := cf.slices.set i fr.2 } fr.1 r h
      rw [h1]
      exact decodeSlice_ok_frame_eq table rc tr cf buf i frame fr hcs h9 h15 hdr

theorem allocFrame_buf16 (rc : ConfigRecord) (f3 : Frame)
    (h9 : 9 ≤ rc.bits_per_raw_sample) (h15 : rc.bits_per_raw_sample ≤ 15)
    (h : allocFrame rc = some f3) : AllZ f3.buf16 := by
  simp only [allocFrame] at h
  rw [if_neg (by omega : ¬rc.bits_per_raw_sample = 8)] at h
  simp only [Option.bind_eq_bind, Option.some_bind] at h
  rw [if_pos (Or.inl (by omega : rc.bits_per_raw_sample > 8))] at h
  simp only [Option.bind_eq_bind, Option.some_bind, Option.bind_eq_some] at h
  obtain ⟨f2, hb, h⟩ := h
  rw [if_neg (by
    rintro ⟨h16, _⟩
    omega : ¬(rc.bits_per_raw_sample = 16 ∧ rc.colorspace_type = 1))] at h
  cases h
  obtain ⟨a, ha, hsome⟩ := hb
  cases hsome
  exact allocPlanes_zero _ _ _ _ _ _ ha

/-- Claim C3, counterexample. A non-keyframe packet whose slice count
differs from the previous frame (here: one slice against an empty history)
is one of the claim's SliceError cases, but `decode_frame` wraps the
`parse_footers` failure as a `FrameError`, so the surfaced kind is
`FrameError`, not `SliceError`. -/
theorem C3_counterexample :
    decodeFrame tbl0 dec0 packet8 = some (.error (.FrameError
      "invalid frame footer: Slice error: inter frames must have the same number of slices as the preceding intra frame")) := by
  decide

/-- Claim C3, amended: (1) a non-keyframe slice-count mismatch makes
`decode_frame` return a `FrameError` wrapping the footer failure; (2) a
`decode_slice` call returns an error exactly when `ec = 1` and either the
slice's `error_status` byte is non-zero (a `SliceError`) or the CRC over
the slice window is non-zero (an `InvalidInputData`); (3) every error the
slice loop surfaces from `decode_frame` is of kind `SliceError` (wrapping
the slice failure); and (4) out-of-range footer arithmetic in
`count_slices` panics (modelled `none`) instead of returning any error. -/
theorem C3_theorem :
    (∀ (table : List Nat) (dec : Decoder) (buf : List Nat) (f3 : Frame)
        (infos : List SliceInfo),
      allocFrame dec.record = some f3 →
      isKeyframe table buf = some false →
      countSlices buf (dec.record.ec != 0) = some infos →
      infos.length ≠ dec.current_frame.slices.length →
      decodeFrame table dec buf = some (.error (.FrameError
        "invalid frame footer: Slice error: inter frames must have the same number of slices as the preceding intra frame"))) ∧
    (∀ (table : List Nat) (rc : ConfigRecord) (tr : List Nat)
        (cf : InternalFrame) (buf : List Nat) (i : Nat) (frame : Frame)
        (e : Error),
      decodeSlice table rc tr cf buf i frame = some (.error e) ↔
        ∃ info cur, cf.slice_info.get? i = some info ∧
          cf.slices.get? i = some cur ∧ rc.ec = 1 ∧
          ((info.error_status ≠ 0 ∧
              e = .SliceError
                ("error_status is non-zero: " ++ Nat.repr info.error_status)) ∨
            (info.error_status = 0 ∧
              ∃ se, sliceBytes buf info = some se ∧ crc32_mpeg2 se ≠ 0 ∧
                e = .InvalidInputData "CRC mismatch"))) ∧
    (∀ (table : List Nat) (rc : ConfigRecord) (tr : List Nat)
        (buf : List Nat) (left i : Nat) (cf : InternalFrame) (frame : Frame)
        (e : Error),
      sliceLoop table rc tr buf left i cf frame = some (.error e) →
      e.isSliceError = true) ∧
    countSlices [0, 0, 1, 0, 0, 0, 0, 0] true = none := by
  refine ⟨?_, ?_, ?_, by decide⟩
  · intro table dec buf f3 infos h1 h2 h3 h4
    exact decodeFrame_mismatch_frameError table dec buf f3 infos h1 h2 h3 h4
  · intro table rc tr cf buf i frame e
    exact decodeSlice_error_iff table rc tr cf buf i frame e
  · intro table rc tr buf left i cf frame e
    exact sliceLoop_error_shape table rc tr buf left i cf frame e

/-- Witness for `C3_theorem`: its slice-loop conjunct applied to a concrete
run whose slice reports a non-zero `error_status`. -/
theorem C3_witness :
    Error.isSliceError (.SliceError
      "slice 0 failed: Slice error: error_status is non-zero: 5") = true :=
  C3_theorem.2.2.1 tbl0 rec0 tbl0 packet8 1 0 cfW frameW
    (.SliceError "slice 0 failed: Slice error: error_status is non-zero: 5")
    (by decide)

/-! ### Claim C2: 9-to-15-bit YCbCr decodes nothing -/

/-- Claim C2: for a YCbCr stream (`colorspace_type = 0`) whose
`bits_per_raw_sample` lies strictly between 8 and 16, a successful
`decode_frame` returns a frame whose `buf16` planes are entirely zero:
`decode_slice_content` only has branches for 8 and 16 bits, so no sample is
ever written. -/
theorem C2_theorem (table : List Nat) (dec : Decoder) (buf : List Nat)
    (f : Frame) (dec' : Decoder)
    (hcs : dec.record.colorspace_type = 0)
    (h9 : 9 ≤ dec.record.bits_per_raw_sample)
    (h15 : dec.record.bits_per_raw_sample ≤ 15)
    (h : decodeFrame table dec buf = some (.ok (f, dec'))) :
    (f.buf16.all fun p => p.all fun v => v == 0) = true := by
  simp only [decodeFrame] at h
  simp only [Option.bind_eq_bind, Option.bind_eq_some] at h
  obtain ⟨f3, hf3, h⟩ := h
  obtain ⟨kf, hkf, h⟩ := h
  obtain ⟨pf, hpf, h⟩ := h
  match pf with
  | .error e => simp at h
  | .ok cf1 =>
    simp only [Option.bind_eq_bind, Option.bind_eq_some] at h
    obtain ⟨lr, hlr, h⟩ := h
    match lr with
    | .error e => simp at h
    | .ok fr =>
      have hfr : fr.1 = f3 := sliceLoop_ok_frame_eq table dec.record dec.state_transition
        buf hcs h9 h15 cf1.slices.length 0 cf1 f3 fr hlr
      have hz : AllZ fr.1.buf16 := by
        rw [hfr]
        exact allocFrame_buf16 dec.record f3 h9 h15 hf3
      dsimp only at h
      rw [if_neg (by
        rintro ⟨h8, _⟩
        omega : ¬(dec.record.bits_per_raw_sample = 8 ∧
          dec.record.colorspace_type = 1))] at h
      cases h
      rw [List.all_eq_true]
      intro p hp
      rw [List.all_eq_true]
      intro v hv
      simpa using hz p hp v hv

/-- Witness for `C2_theorem`: a concrete 12-bit YCbCr decode of an
all-zero one-slice packet succeeds and leaves the single allocated `buf16`
plane zero. -/
theorem C2_witness :
    (([[0]] : List (List Nat)).all fun p => p.all fun v => v == 0) = true :=
  C2_theorem tbl0 dec2 packet8 _ _ (by decide) (by decide) (by decide) rfl

/-! ### Claim C9: alpha plane ordering -/

/-- The plane list built by `parse_slice_header` when `extra_plane` is set:
the alpha plane (a copy of the full plane with quant table index 2) sits at
index 0, the full luma plane (quant index 0) at index 1, and everything
past them (the chroma planes, when present) uses quant index 1. -/
theorem slicePlanesOf_extra (rc : ConfigRecord) (sx sy sw sh : Nat)
    (hx : rc.extra_plane = true) :
    (((slicePlanesOf rc sx sy sw sh).get? 1).map
        (fun p => { p with quant := 2 }) =
        (slicePlanesOf rc sx sy sw sh).get? 0) ∧
      ((slicePlanesOf rc sx sy sw sh).get? 0).map SlicePlane.quant = some 2 ∧
      ((slicePlanesOf rc sx sy sw sh).get? 1).map SlicePlane.quant = some 0 ∧
      ((slicePlanesOf rc sx sy sw sh).drop 2).all
        (fun p => p.quant == 1) = true := by
  unfold slicePlanesOf
  rw [hx]
  by_cases hch : rc.chroma_planes <;> simp [hch]

/-- `parse_slice_header` only ever appends the `slicePlanesOf` list (built
from the four decoded slice-grid coordinates) to the incoming plane
list. -/
theorem parseSliceHeader_planes (rc : ConfigRecord) (cur : Slice)
    (coder : RangeCoder) (sl : Slice) (c' : RangeCoder)
    (h : parseSliceHeader rc cur coder = some (sl, c')) :
    ∃ sx sy sw sh,
      sl.planes = cur.planes ++ slicePlanesOf rc sx sy sw sh := by
  unfold parseSliceHeader at h
  simp only [Option.bind_eq_bind, Option.bind_eq_some] at h
  obtain ⟨r1, _, h⟩ := h
  obtain ⟨r2, _, h⟩ := h
  obtain ⟨r3, _, h⟩ := h
  obtain ⟨r4, _, h⟩ := h
  obtain ⟨rq, _, h⟩ := h
  obtain ⟨r5, _, h⟩ := h
  obtain ⟨r6, _, h⟩ := h
  obtain ⟨r7, _, h⟩ := h
  cases h
  exact ⟨r1.1, r2.1, r3.1, r4.1, rfl⟩

/-- Claim C9: whenever `extra_plane` is true and the slice starts with an
empty plane list, `parse_slice_header` pushes the alpha plane (quant table
index 2, otherwise identical to the luma plane) at index 0, the full luma
plane (quant index 0) at index 1, and any chroma planes after them (quant
index 1). -/
theorem C9_theorem (rc : ConfigRecord) (cur : Slice) (coder : RangeCoder)
    (sl : Slice) (c' : RangeCoder) (hx : rc.extra_plane = true)
    (hp : cur.planes = [])
    (h : parseSliceHeader rc cur coder = some (sl, c')) :
    ((sl.planes.get? 1).map (fun p => { p with quant := 2 }) =
        sl.planes.get? 0) ∧
      (sl.planes.get? 0).map SlicePlane.quant = some 2 ∧
      (sl.planes.get? 1).map SlicePlane.quant = some 0 ∧
      (sl.planes.drop 2).all (fun p => p.quant == 1) = true := by
  obtain ⟨sx, sy, sw, sh, hpl⟩ := parseSliceHeader_planes rc cur coder sl c' h
  rw [hpl, hp, List.nil_append]
  exact slicePlanesOf_extra rc sx sy sw sh hx

/-- Claim C9, witness: a concrete `parse_slice_header` run with
`extra_plane` set. -/
theorem C9_witness :
    ((slX.planes.get? 1).map (fun p => { p with quant := 2 }) =
        slX.planes.get? 0) ∧
      (slX.planes.get? 0).map SlicePlane.quant = some 2 ∧
      (slX.planes.get? 1).map SlicePlane.quant = some 0 ∧
      (slX.planes.drop 2).all (fun p => p.quant == 1) = true :=
  C9_theorem recX Slice.default rcZ slX cX rfl rfl (by decide)

/-! ### Claim C10: chroma plane geometry -/

/-- For subsample logs up to 30 — a positive `i32` divisor — the source's
`f64` ceiling division is the integer ceiling division by `2^log2`. -/
theorem ceilDivF64_eq_ceilDiv (a log2 : Nat) (h : log2 ≤ 30) :
    ceilDivF64 a log2 = a ⌈/⌉ 2 ^ log2 := by
  unfold ceilDivF64
  rw [Nat.mod_eq_of_lt (by omega), if_pos h, Nat.ceilDiv_eq_add_pred_div]

/-- Claim C10, counterexample. The subsample logs are `u8` values and the
divisor is computed as `1i32 << log2`: at `log2_v_chroma_subsample = 31`
(which the parser accepts for YCbCr) that divisor is the negative `i32`
`-2^31`, the `f64` quotient of the positive luma `start_x` is negative,
and the saturating `as u32` cast makes the chroma `start_x` 0 — not the
claimed ceiling division by `2^31`, which gives 1. -/
theorem C10_counterexample :
    ((slicePlanesOf recZ31 1 0 0 0).get? 2).map SlicePlane.start_x =
        some 0 ∧
      ((slicePlanesOf recZ31 1 0 0 0).get? 0).map SlicePlane.start_x =
        some 1 ∧
      (1 : Nat) ⌈/⌉ 2 ^ recZ31.log2_v_chroma_subsample = 1 := by
  refine ⟨by decide, by decide, ?_⟩
  rw [show recZ31.log2_v_chroma_subsample = 31 from rfl,
    Nat.ceilDiv_eq_add_pred_div]
  norm_num

/-- Claim C10, amended: for subsample logs at most 30 (so that the `i32`
divisor `1 << log2` is positive; at 31 the saturating `f64` path returns 0
instead, see the counterexample), the last two planes pushed by
`parse_slice_header` with chroma planes present are two identical chroma
planes (quant table index 1) whose `start_x` is the luma `start_x`
ceiling-divided by `2^log2_v_chroma_subsample` and whose `start_y` is the
luma `start_y` ceiling-divided by `2^log2_h_chroma_subsample` (the
vertical log applied to the horizontal coordinate and vice versa, as the
source does), while width and stride use the horizontal log and height the
vertical log. The luma plane is the one just before the chroma pair. -/
theorem C10_theorem (rc : ConfigRecord) (cur : Slice) (coder : RangeCoder)
    (sl : Slice) (c' : RangeCoder) (hch : rc.chroma_planes = true)
    (hlh : rc.log2_h_chroma_subsample ≤ 30)
    (hlv : rc.log2_v_chroma_subsample ≤ 30)
    (hp : cur.planes = [])
    (h : parseSliceHeader rc cur coder = some (sl, c')) :
    sl.planes.get? (sl.planes.length - 1) =
        sl.planes.get? (sl.planes.length - 2) ∧
      (sl.planes.get? (sl.planes.length - 1)).map SlicePlane.quant =
        some 1 ∧
      (sl.planes.get? (sl.planes.length - 1)).map SlicePlane.start_x =
        (sl.planes.get? (sl.planes.length - 3)).map
          (fun p => p.start_x ⌈/⌉ 2 ^ rc.log2_v_chroma_subsample) ∧
      (sl.planes.get? (sl.planes.length - 1)).map SlicePlane.start_y =
        (sl.planes.get? (sl.planes.length - 3)).map
          (fun p => p.start_y ⌈/⌉ 2 ^ rc.log2_h_chroma_subsample) ∧
      (sl.planes.get? (sl.planes.length - 1)).map SlicePlane.width =
        (sl.planes.get? (sl.planes.length - 3)).map
          (fun p => p.width ⌈/⌉ 2 ^ rc.log2_h_chroma_subsample) ∧
      (sl.planes.get? (sl.planes.length - 1)).map SlicePlane.height =
        (sl.planes.get? (sl.planes.length - 3)).map
          (fun p => p.height ⌈/⌉ 2 ^ rc.log2_v_chroma_subsample) ∧
      (sl.planes.get? (sl.planes.length - 1)).map SlicePlane.stride =
        (sl.planes.get? (sl.planes.length - 3)).map
          (fun p => p.stride ⌈/⌉ 2 ^ rc.log2_h_chroma_subsample) := by
  obtain ⟨sx, sy, sw, sh, hpl⟩ := parseSliceHeader_planes rc cur coder sl c' h
  rw [hpl, hp, List.nil_append]
  have e1 : ∀ a, ceilDivF64 a rc.log2_h_chroma_subsample =
      a ⌈/⌉ 2 ^ rc.log2_h_chroma_subsample :=
    fun a => ceilDivF64_eq_ceilDiv a _ hlh
  have e2 : ∀ a, ceilDivF64 a rc.log2_v_chroma_subsample =
      a ⌈/⌉ 2 ^ rc.log2_v_chroma_subsample :=
    fun a => ceilDivF64_eq_ceilDiv a _ hlv
  by_cases hx : rc.extra_plane <;>
    simp [slicePlanesOf, hch, hx, e1, e2]

/-- Claim C10, witness: a concrete `parse_slice_header` run with chroma
planes and asymmetric subsampling logs. -/
theorem C10_witness :
    slY.planes.get? (slY.planes.length - 1) =
        slY.planes.get? (slY.planes.length - 2) ∧
      (slY.planes.get? (slY.planes.length - 1)).map SlicePlane.quant =
        some 1 ∧
      (slY.planes.get? (slY.planes.length - 1)).map SlicePlane.start_x =
        (slY.planes.get? (slY.planes.length - 3)).map
          (fun p => p.start_x ⌈/⌉ 2 ^ recY.log2_v_chroma_subsample) ∧
      (slY.planes.get? (slY.planes.length - 1)).map SlicePlane.start_y =
        (slY.planes.get? (slY.planes.length - 3)).map
          (fun p => p.start_y ⌈/⌉ 2 ^ recY.log2_h_chroma_subsample) ∧
      (slY.planes.get? (slY.planes.length - 1)).map SlicePlane.width =
        (slY.planes.get? (slY.planes.length - 3)).map
          (fun p => p.width ⌈/⌉ 2 ^ recY.log2_h_chroma_subsample) ∧
      (slY.planes.get? (slY.planes.length - 1)).map SlicePlane.height =
        (slY.planes.get? (slY.planes.length - 3)).map
          (fun p => p.height ⌈/⌉ 2 ^ recY.log2_v_chroma_subsample) ∧
      (slY.planes.get? (slY.planes.length - 1)).map SlicePlane.stride =
        (slY.planes.get? (slY.planes.length - 3)).map
          (fun p => p.stride ⌈/⌉ 2 ^ recY.log2_h_chroma_subsample) :=
  C10_theorem recY Slice.default rcZ slY cY rfl (by decide) (by decide) rfl
    (by decide)

/-! ### Claim C6: the scalar symbol decoder -/

/-- The exponent loop of `RangeCoder::symbol` never leaves with `e`
above 31 (the source panics instead). -/
theorem expGo_le : ∀ (f : Nat) (c : RangeCoder) (st : List Nat) (e : Nat)
    (out : Nat × List Nat × RangeCoder), e ≤ 31 →
    RangeCoder.expGo f c st e = some out → out.1 ≤ 31 := by
  intro f
  induction f with
  | zero =>
    intro c st e out he h
    simp [RangeCoder.expGo] at h
  | succ f ih =>
    intro c st e out he h
    unfold RangeCoder.expGo at h
    simp only [Option.bind_eq_bind, Option.bind_eq_some] at h
    obtain ⟨r, hr, h⟩ := h
    by_cases hb : r.1
    · rw [if_pos hb] at h
      by_cases h31 : e + 1 > 31
      · rw [if_pos h31] at h
        exact absurd h (by simp)
      · rw [if_neg h31] at h
        exact ih r.2.2 r.2.1 (e + 1) out (by omega) h
    · rw [if_neg hb] at h
      cases h
      exact he

/-- The mantissa loop of `RangeCoder::symbol` is monotone in its
accumulator and bounded: starting from `a` it returns a value in
`[a, (a+1) * 2^k)` after `k` iterations. -/
theorem manGo_bounds : ∀ (k : Nat) (c : RangeCoder) (st : List Nat) (a : Nat)
    (out : Nat × List Nat × RangeCoder),
    RangeCoder.manGo k c st a = some out →
    a ≤ out.1 ∧ out.1 < (a + 1) * 2 ^ k := by
  intro k
  induction k with
  | zero =>
    intro c st a out h
    unfold RangeCoder.manGo at h
    cases h
    simp
  | succ k ih =>
    intro c st a out h
    unfold RangeCoder.manGo at h
    simp only [Option.bind_eq_bind, Option.bind_eq_some] at h
    obtain ⟨r, hr, h⟩ := h
    have hrec := ih r.2.2 r.2.1 (2 * a + (if r.1 then 1 else 0)) out h
    have hb : (if r.1 then 1 else 0) ≤ 1 := by
      by_cases hbit : r.1 <;> simp [hbit]
    constructor
    · have hstep : a ≤ 2 * a + (if r.1 then 1 else 0) := by omega
      exact le_trans hstep hrec.1
    · calc out.1 < (2 * a + (if r.1 then 1 else 0) + 1) * 2 ^ k := hrec.2
        _ ≤ (2 * (a + 1)) * 2 ^ k :=
          Nat.mul_le_mul_right _ (by omega)
        _ = (a + 1) * 2 ^ (k + 1) := by ring

/-- A `u32` in `[1, 2^32)` is non-zero as an `i32`, and so is its `i32`
negation. -/
theorem i32_nonzero (a : Nat) (h1 : 1 ≤ a) (h2 : a < 4294967296) :
    i32ofNat a ≠ 0 ∧ i32wrap (-(i32ofNat a)) ≠ 0 := by
  unfold i32ofNat i32wrap
  omega

/-- Claim C6, counterexample. On a live coder whose initial `get` on
`state[0]` decodes a zero bit, `symbol` emits 1, not 0: the code returns 0
exactly when that `get` decodes a one, the opposite of the claim's "emits 0
exactly when the initial get on state[0] returns 0". -/
theorem C6_counterexample :
    ((rcZ.getAt (List.replicate 32 128) 0).map (fun r => r.1) =
        some false) ∧
      (rcZ.symbol (List.replicate 32 128) false).map (fun r => r.1) =
        some 1 := by
  decide

/-- Claim C6, amended: whenever `RangeCoder::symbol` returns, its value is
0 exactly when the initial `get` on `state[0]` returned 1 (Rust `true`).
When that bit is 0 the exponent `e` stays at most 31, the mantissa starts
from 1 and only grows, so the emitted value — mantissa or negated
mantissa — is never 0. -/
theorem C6_theorem (c : RangeCoder) (st : List Nat) (signed : Bool)
    (out : Int × List Nat × RangeCoder)
    (h : c.symbol st signed = some out) :
    (out.1 = 0 ↔ (c.getAt st 0).map (fun r => r.1) = some true) := by
  simp only [RangeCoder.symbol, Option.bind_eq_bind, Option.bind_eq_some] at h
  obtain ⟨r0, hr0, h⟩ := h
  by_cases hb : r0.1
  · rw [if_pos hb] at h
    cases h
    simp [hr0, hb]
  · rw [if_neg hb] at h
    simp only [Option.bind_eq_bind, Option.bind_eq_some] at h
    obtain ⟨re, hre, h⟩ := h
    obtain ⟨ra, hra, h⟩ := h
    have he := expGo_le 32 r0.2.2 r0.2.1 0 re (by omega) hre
    have ha := manGo_bounds re.1 re.2.2 re.2.1 1 ra hra
    have ha2 : ra.1 < 4294967296 := by
      have hpow : (2:Nat) ^ re.1 ≤ 2 ^ 31 := Nat.pow_le_pow_right (by omega) he
      have hub := ha.2
      have h31 : (2:Nat) ^ 31 = 2147483648 := by norm_num
      omega
    have hnz := i32_nonzero ra.1 ha.1 ha2
    by_cases hsig : signed = true
    · rw [if_pos hsig] at h
      simp only [Option.bind_eq_bind, Option.bind_eq_some] at h
      obtain ⟨rs, hrs, h⟩ := h
      by_cases hs : rs.1
      · rw [if_pos hs] at h
        rw [← Option.some.inj h]
        simp [hr0, hb, hnz.2]
      · rw [if_neg hs] at h
        rw [← Option.some.inj h]
        simp [hr0, hb, hnz.1]
    · rw [if_neg hsig] at h
      rw [← Option.some.inj h]
      simp [hr0, hb, hnz.1]

/-- Claim C6, witness: the amended equivalence at a concrete decode (both
sides false: the initial bit is 0 and the emitted value is 1). -/
theorem C6_witness :
    (C6out.1 = 0 ↔
      (rcZ.getAt (List.replicate 32 128) 0).map (fun r => r.1) =
        some true) :=
  C6_theorem rcZ (List.replicate 32 128) false C6out (by decide)

/-! ### Claim C7: the decoded sample formula -/

/-- Masking an already-reduced value with a wider power of two changes
nothing: the store cast of `decode_line` is lossless whenever the shift
does not exceed the element width. -/
theorem emod_toNat_mask (X : Int) (S eB : Nat) (hle : S ≤ eB) :
    (X.emod (2 ^ S)).toNat % 2 ^ eB = (X.emod (2 ^ S)).toNat := by
  have h0 : (0:Int) < 2 ^ S := by positivity
  have h1 : 0 ≤ X.emod (2 ^ S) := Int.emod_nonneg X (ne_of_gt h0)
  have h2 : X.emod (2 ^ S) < 2 ^ S := Int.emod_lt_of_pos X h0
  have hc : ((2 ^ S : Nat) : Int) = (2:Int) ^ S := by push_cast; ring
  have hlt : (X.emod (2 ^ S)).toNat < 2 ^ S := by omega
  exact Nat.mod_eq_of_lt (lt_of_lt_of_le hlt (Nat.pow_le_pow_right (by omega) hle))

/-- Reordering the two summands under the mask. -/
theorem emod_toNat_add_comm (p d m : Int) :
    ((d + p).emod m).toNat = ((p + d).emod m).toNat := by
  rw [Int.add_comm]

/-- Claim C7: every sample written by the `decode_line` body is exactly
`claimSampleValue` — `(pred + diff) mod 2^S` with the claim's median
predictor, shift choice, 16-bit sign-extension condition, and `diff` the
coder residual with the context sign flag applied. The hypothesis
`S ≤ elemBits` says the store does not truncate; it holds at every call
site (8-bit samples in `u8`, 16-bit in `u16`, RGB in `u32`). -/
theorem C7_theorem (hdr : SliceHeader) (rec : ConfigRecord) (ctx : LineCtx)
    (width height stride yy qt x elemBits : Nat) (ctx' : LineCtx)
    (hshift : (if rec.colorspace_type = 1 then rec.bits_per_raw_sample + 1
               else rec.bits_per_raw_sample) ≤ elemBits)
    (h : decodeSample hdr rec ctx width height stride yy qt x elemBits =
      some ctx') :
    ∃ qi qtab bs rd,
      hdr.quant_table_set_index.get? qt = some qi ∧
      rec.quant_tables.get? qi = some qtab ∧
      deriveBorders ctx.buf x yy width stride = some bs ∧
      coderResidual ctx qt
        (if getContext qtab (bs.1 : Int) (bs.2.1 : Int) (bs.2.2.1 : Int)
              (bs.2.2.2.1 : Int) (bs.2.2.2.2.1 : Int) (bs.2.2.2.2.2 : Int) <
            0 then
          -getContext qtab (bs.1 : Int) (bs.2.1 : Int) (bs.2.2.1 : Int)
            (bs.2.2.2.1 : Int) (bs.2.2.2.2.1 : Int) (bs.2.2.2.2.2 : Int)
        else
          getContext qtab (bs.1 : Int) (bs.2.1 : Int) (bs.2.2.1 : Int)
            (bs.2.2.2.1 : Int) (bs.2.2.2.2.1 : Int) (bs.2.2.2.2.2 : Int))
        (if rec.colorspace_type = 1 then rec.bits_per_raw_sample + 1
         else rec.bits_per_raw_sample) = some rd ∧
      ctx'.buf = ctx.buf.set (yy * stride + x)
        (claimSampleValue rec ctx.coder.isGolomb (bs.2.2.2.1 : Int)
          (bs.2.2.1 : Int) (bs.2.2.2.2.2 : Int)
          (if getContext qtab (bs.1 : Int) (bs.2.1 : Int) (bs.2.2.1 : Int)
                (bs.2.2.2.1 : Int) (bs.2.2.2.2.1 : Int)
                (bs.2.2.2.2.2 : Int) < 0 then
            i32wrap (-rd.1)
          else rd.1)).toNat := by
  simp only [decodeSample, Option.bind_eq_bind, Option.bind_eq_some] at h
  obtain ⟨qi, hqi, h⟩ := h
  obtain ⟨qtab, hqt, h⟩ := h
  obtain ⟨bs, hbs, h⟩ := h
  obtain ⟨rd, hrd, h⟩ := h
  obtain ⟨buf1, hbuf, h⟩ := h
  refine ⟨qi, qtab, bs, rd, hqi, hqt, hbs, hrd, ?_⟩
  rw [← Option.some.inj h]
  unfold setAt at hbuf
  by_cases hidx : yy * stride + x < ctx.buf.length
  · rw [if_pos hidx] at hbuf
    rw [← Option.some.inj hbuf]
    rw [emod_toNat_mask _ _ _ hshift]
    simp only [claimSampleValue, getMedian]
    exact congrArg (ctx.buf.set (yy * stride + x))
      (emod_toNat_add_comm _ _ _)
  · rw [if_neg hidx] at hbuf
    exact absurd hbuf (by simp)

/-- Claim C7, witness: one concrete sample decode over the live coder
(12-bit YCbCr, residual 1 at an all-zero context, writing value 1). -/
theorem C7_witness :
    ∃ qi qtab bs rd,
      hdrW.quant_table_set_index.get? 0 = some qi ∧
      rec0.quant_tables.get? qi = some qtab ∧
      deriveBorders ctxW.buf 0 0 1 1 = some bs ∧
      coderResidual ctxW 0
        (if getContext qtab (bs.1 : Int) (bs.2.1 : Int) (bs.2.2.1 : Int)
              (bs.2.2.2.1 : Int) (bs.2.2.2.2.1 : Int) (bs.2.2.2.2.2 : Int) <
            0 then
          -getContext qtab (bs.1 : Int) (bs.2.1 : Int) (bs.2.2.1 : Int)
            (bs.2.2.2.1 : Int) (bs.2.2.2.2.1 : Int) (bs.2.2.2.2.2 : Int)
        else
          getContext qtab (bs.1 : Int) (bs.2.1 : Int) (bs.2.2.1 : Int)
            (bs.2.2.2.1 : Int) (bs.2.2.2.2.1 : Int) (bs.2.2.2.2.2 : Int))
        (if rec0.colorspace_type = 1 then rec0.bits_per_raw_sample + 1
         else rec0.bits_per_raw_sample) = some rd ∧
      ctxW'.buf = ctxW.buf.set (0 * 1 + 0)
        (claimSampleValue rec0 ctxW.coder.isGolomb (bs.2.2.2.1 : Int)
          (bs.2.2.1 : Int) (bs.2.2.2.2.2 : Int)
          (if getContext qtab (bs.1 : Int) (bs.2.1 : Int) (bs.2.2.1 : Int)
                (bs.2.2.2.1 : Int) (bs.2.2.2.2.1 : Int)
                (bs.2.2.2.2.2 : Int) < 0 then
            i32wrap (-rd.1)
          else rd.1)).toNat :=
  C7_theorem hdrW rec0 ctxW 1 1 1 0 0 0 16 ctxW' (by decide) (by decide)
